import Mathlib

/-!
Verification of the inferno cabling engine (geometry and media selection,
manifest validation, BOM spares, and BOM-vs-intent reconciliation).

The definitions below are shallow embeddings of the Python sources:
  packages/inferno-tools/src/inferno_tools/cabling/common.py
  packages/inferno-tools/src/inferno_tools/cabling/cross_validate.py
  packages/inferno-core/src/inferno_core/validation/cabling.py
  packages/inferno-tools/src/inferno_tools/cabling/cabling_bom.py

Modelling conventions:
  - Python floats are modelled as rationals; Python ints as integers.
  - Python dicts are modelled as insertion-ordered association lists
    (assignment replaces in place, new keys append at the end, deletion
    removes the entry), which is exactly the observable behaviour of
    dict iteration in CPython.
  - Code that can raise (KeyError on a missing dict key, ValueError from
    max() on an empty sequence, uncaught loader exceptions) is modelled in
    Option or Except; a none or error result is a raised exception.
-/

namespace Inferno

/-! ### Insertion-ordered dictionaries (Python dict) -/

/-- Keys of an association list, in insertion order (`list(d.keys())`). -/
def keysOf {κ ν : Type} (m : List (κ × ν)) : List κ := m.map Prod.fst

/-- `d[k]` as a lookup; `none` is a raised `KeyError`. -/
def getVal {κ ν : Type} [DecidableEq κ] : List (κ × ν) → κ → Option ν
  | [], _ => none
  | (k, v) :: rest, key => if k = key then some v else getVal rest key

/-- `d[k] = v`: replace in place if the key exists, else append. -/
def setVal {κ ν : Type} [DecidableEq κ] : List (κ × ν) → κ → ν → List (κ × ν)
  | [], key, v => [(key, v)]
  | (k, v0) :: rest, key, v =>
      if k = key then (key, v) :: rest else (k, v0) :: setVal rest key v

/-- `del d[k]`: remove the (unique) entry with the given key. -/
def delKey {κ ν : Type} [DecidableEq κ] : List (κ × ν) → κ → List (κ × ν)
  | [], _ => []
  | (k, v0) :: rest, key =>
      if k = key then rest else (k, v0) :: delKey rest key

/-- `d.get(k, default)`. -/
def getValD {κ ν : Type} [DecidableEq κ] (m : List (κ × ν)) (key : κ) (dflt : ν) : ν :=
  (getVal m key).getD dflt

/-! ### Python sequence primitives -/

/-- Python `max(l)` for a nonempty list; `none` is the `ValueError` raised
on an empty sequence. -/
def pyMax : List ℤ → Option ℤ
  | [] => none
  | x :: xs => some (xs.foldl max x)

/-- Python `min(l)` for a nonempty list; `none` is the `ValueError`. -/
def pyMin : List ℤ → Option ℤ
  | [] => none
  | x :: xs => some (xs.foldl min x)

/-- Python `min(l, key = fun x => |x - target|)`: the first element whose
distance to `target` is minimal (`none` on an empty list). -/
def argminAbs (target : ℤ) : List ℤ → Option ℤ
  | [] => none
  | x :: xs => some (xs.foldl (fun best y =>
      if |y - target| < |best - target| then y else best) x)

/-! ### common.py — geometry and media selection -/

/-- `compute_rack_distance_m`: Manhattan distance between grid positions. -/
def compute_rack_distance_m (grid_a grid_b : ℤ × ℤ) (tile_m : ℚ) : ℚ :=
  ((|grid_a.1 - grid_b.1| + |grid_a.2 - grid_b.2| : ℤ) : ℚ) * tile_m

/-- `apply_slack`: multiply a distance by the slack factor. -/
def apply_slack (distance_m slack_factor : ℚ) : ℚ :=
  distance_m * slack_factor

/-- `select_length_bin` from common.py: iterate the sorted bins and return
the first bin that is at least the distance, `none` if no bin fits. -/
def select_length_bin (distance_m : ℚ) (bins_m : List ℤ) : Option ℤ :=
  (List.insertionSort (· ≤ ·) bins_m).find? (fun b => decide (distance_m ≤ (b : ℚ)))

/-- `with_spares`: `math.ceil(count * (1.0 + spares_fraction))`. -/
def with_spares (count : ℕ) (spares_fraction : ℚ) : ℤ :=
  ⌈(count : ℚ) * (1 + spares_fraction)⌉

/-- `MediaLabels` (models/cabling_policy.py): every field optional. -/
structure MediaLabels where
  dac : Option String
  aoc : Option String
  fiber : Option String
  label : Option String
deriving DecidableEq, Repr

/-- `MediaRule` (models/cabling_policy.py). -/
structure MediaRule where
  dac_max_m : Option ℚ
  bins_m : List ℤ
  labels : Option MediaLabels
deriving DecidableEq, Repr

/-- `Heuristics` (models/cabling_policy.py). -/
structure Heuristics where
  same_rack_leaf_to_node_m : ℚ
  adjacent_rack_leaf_to_spine_m : ℚ
  non_adjacent_rack_leaf_to_spine_m : ℚ
  slack_factor : ℚ
  tile_m : ℚ
deriving DecidableEq, Repr

/-- `CablingPolicy` (models/cabling_policy.py), the fields used by
`select_cable_type_and_bin`: `heuristics` is optional and `media_rules`
is a dict keyed by media class. -/
structure CablingPolicy where
  media_rules : List (String × MediaRule)
  heuristics : Option Heuristics
deriving DecidableEq, Repr

/-- The bin part of `select_cable_type_and_bin`: the selected length bin,
replaced by the largest bin when the distance exceeds every bin; the
`error` is the `ValueError` of `max([])` on an empty bin list. -/
def clampedBinE (adjusted_distance : ℚ) (length_bins_m : List ℤ) : Except String ℤ :=
  match select_length_bin adjusted_distance length_bins_m with
  | some b => Except.ok b
  | Option.none =>
    match pyMax length_bins_m with
    | some m => Except.ok m
    | Option.none => Except.error "ValueError: max() arg is an empty sequence"

/-- The 25G/100G branch of `select_cable_type_and_bin`: look the media rule
up, compare the adjusted distance with `dac_max_m` (inclusive), then with
the fixed AOC bound 10 (inclusive), and read the corresponding label.  An
`error` is a raised `AttributeError`/`TypeError` (missing rule, `None`
`dac_max_m`, missing `labels`). -/
def opticalCableType (adjusted_distance : ℚ) (policy : CablingPolicy) (ruleKey : String) :
    Except String (Option String) :=
  match getVal policy.media_rules ruleKey with
  | Option.none => Except.error ("AttributeError: " ++ ruleKey)
  | some rules =>
    match rules.dac_max_m with
    | Option.none => Except.error "TypeError: comparison with None"
    | some dac_max =>
      if adjusted_distance ≤ dac_max then
        match rules.labels with
        | Option.none => Except.error "AttributeError: dac"
        | some labels => Except.ok labels.dac
      else if adjusted_distance ≤ 10 then
        match rules.labels with
        | Option.none => Except.error "AttributeError: aoc"
        | some labels => Except.ok labels.aoc
      else
        match rules.labels with
        | Option.none => Except.error "AttributeError: fiber"
        | some labels => Except.ok labels.fiber

/-- `select_cable_type_and_bin` from common.py.  The result is
`(cable_type, selected_bin)`; the cable type is optional because a present
`labels` record may still carry `none` for the selected label.  An `error`
is a raised Python exception; in particular the RJ45 branch reads
`labels.rj45`, a field `MediaLabels` does not declare, so reaching it
raises `AttributeError`. -/
def select_cable_type_and_bin (distance_m : ℚ) (link_type : String)
    (policy : CablingPolicy) (length_bins_m : List ℤ) :
    Except String (Option String × ℤ) :=
  match policy.heuristics with
  | Option.none => Except.error "AttributeError: slack_factor"
  | some heur =>
    let adjusted_distance := apply_slack distance_m heur.slack_factor
    match clampedBinE adjusted_distance length_bins_m with
    | Except.error e => Except.error e
    | Except.ok selected_bin =>
      let withBin := fun (ct : Except String (Option String)) =>
        match ct with
        | Except.error e => (Except.error e : Except String (Option String × ℤ))
        | Except.ok cable_type => Except.ok (cable_type, selected_bin)
      if link_type = "25G" then withBin (opticalCableType adjusted_distance policy "sfp28_25g")
      else if link_type = "100G" then withBin (opticalCableType adjusted_distance policy "qsfp28_100g")
      else if link_type = "RJ45" then withBin (Except.error "AttributeError: rj45")
      else withBin (Except.ok (some ("Unknown " ++ link_type)))

/-! ### cross_validate.py — BOM vs intent reconciliation -/

/-- A context value in a finding (Python dict values are ints, floats,
strings or lists there). -/
inductive CtxVal where
  | I (n : ℤ)
  | Q (q : ℚ)
  | S (s : String)
  | B (b : Bool)
  | LI (l : List ℤ)
  | none
deriving DecidableEq, Repr

/-- `CrossFinding` (models/cross.py): severity is one of the literal
strings FAIL, WARN, INFO. -/
structure CrossFinding where
  severity : String
  code : String
  message : String
  context : List (String × CtxVal)
deriving DecidableEq, Repr

/-- The multiset shape `length_bin -> count` used by the reconciliation. -/
abbrev BinMap := List (ℤ × ℤ)

/-- `cable_type -> length_bin -> count`. -/
abbrev TypeMap := List (String × BinMap)

/-- `class -> cable_type -> length_bin -> count`. -/
abbrev ClassMap := List (String × TypeMap)

/-- The slice of the loosely-typed policy dict read by
`_reconcile_bom_vs_intent`: `policy.get("heuristics", {}).get("bin_slop_m", 2.0)`. -/
structure CrossHeuristics where
  bin_slop_m : Option ℚ
deriving DecidableEq, Repr

structure CrossPolicy where
  heuristics : Option CrossHeuristics
deriving DecidableEq, Repr

def binSlopOf (policy : CrossPolicy) : ℚ :=
  ((policy.heuristics.map CrossHeuristics.bin_slop_m).getD Option.none).getD 2

/-- `_select_length_bin` from cross_validate.py: the same loop over the
sorted bins as `select_length_bin`, falling back to the largest bin when
no bin fits (`none` is the `ValueError` of `max([])` on an empty bin
list — the only way this function does not produce a bin). -/
def cv_select_length_bin (distance_m : ℚ) (bins : List ℤ) : Option ℤ :=
  match select_length_bin distance_m bins with
  | some b => some b
  | Option.none => pyMax bins

/-- Group initialisation of `_reconcile_bom_vs_intent`: for every class in
the union of the two key sets and every cable type in the union of the two
inner key sets, copy the two `length_bin -> count` maps (missing side
becomes an empty dict).  The flattened list keeps the iteration order of
the nested dicts. -/
def initGroupPairs (bom intent : ClassMap) : List (String × String × BinMap × BinMap) :=
  ((keysOf bom ++ keysOf intent).eraseDups).flatMap (fun class_name =>
    let bom_cable_types := getValD bom class_name []
    let intent_cable_types := getValD intent class_name []
    ((keysOf bom_cable_types ++ keysOf intent_cable_types).eraseDups).map (fun cable_type =>
      (class_name, cable_type,
        getValD bom_cable_types cable_type [],
        getValD intent_cable_types cable_type [])))

/-- One iteration of the exact-match loop: `bin_size` runs over the bom
keys captured before the loop, membership is tested against the intent
keys captured before the loop, `min(bom_count, intent_count)` is matched
and zero entries are deleted. -/
def exactStep (intent_bins : List ℤ) (st : BinMap × BinMap) (bin_size : ℤ) :
    Option (BinMap × BinMap) :=
  let (b, i) := st
  if bin_size ∈ intent_bins then do
    let bom_count ← getVal b bin_size
    let intent_count ← getVal i bin_size
    let matched := min bom_count intent_count
    let b := setVal b bin_size (bom_count - matched)
    let i := setVal i bin_size (intent_count - matched)
    let b := if getVal b bin_size = some 0 then delKey b bin_size else b
    let i := if getVal i bin_size = some 0 then delKey i bin_size else i
    some (b, i)
  else
    some (b, i)

/-- The exact-match pass over one (class, cable_type) group. -/
def exactPass (b i : BinMap) : Option (BinMap × BinMap) :=
  (keysOf b).foldlM (exactStep (keysOf i)) (b, i)

/-- The severity and code a bin mismatch is classified with:
WARN `BIN_MISMATCH_WARN` when the BOM bin is at least the intent bin and
the gap is within `bin_slop_m`, else FAIL `BIN_MISMATCH_FAIL`. -/
def mismatchClassify (bom_bin closest_intent_bin : ℤ) (bin_slop_m : ℚ) : String × String :=
  if bom_bin ≥ closest_intent_bin ∧ ((bom_bin - closest_intent_bin : ℤ) : ℚ) ≤ bin_slop_m then
    ("WARN", "BIN_MISMATCH_WARN")
  else
    ("FAIL", "BIN_MISMATCH_FAIL")

def mkMismatchFinding (class_name cable_type : String) (bom_bin closest_intent_bin : ℤ)
    (bin_slop_m : ℚ) : CrossFinding :=
  let sc := mismatchClassify bom_bin closest_intent_bin bin_slop_m
  { severity := sc.1
    code := sc.2
    message := class_name ++ " " ++ cable_type ++ ": BOM uses " ++ toString bom_bin ++
      "m bin, intent expects " ++ toString closest_intent_bin ++ "m"
    context := [("class", CtxVal.S class_name), ("cable_type", CtxVal.S cable_type),
      ("bom_bin_m", CtxVal.I bom_bin), ("intent_bin_m", CtxVal.I closest_intent_bin),
      ("bin_slop_m", CtxVal.Q bin_slop_m)] }

/-- One iteration of the bin-mismatch loop.  `remaining_intent_bins` is the
list captured before the loop and is never updated by the source, so the
closest intent bin may already have been deleted from the dict: that
lookup is the `KeyError` site (`none`). -/
def mismatchStep (class_name cable_type : String) (bin_slop_m : ℚ)
    (remaining_intent_bins : List ℤ) (st : List CrossFinding × BinMap × BinMap)
    (bom_bin : ℤ) : Option (List CrossFinding × BinMap × BinMap) :=
  let (fs, b, i) := st
  match argminAbs bom_bin remaining_intent_bins with
  | Option.none => some (fs, b, i)
  | some closest_intent_bin => do
      let bom_count ← getVal b bom_bin
      let intent_count ← getVal i closest_intent_bin
      if bom_count = intent_count then
        some (fs ++ [mkMismatchFinding class_name cable_type bom_bin closest_intent_bin bin_slop_m],
          delKey b bom_bin, delKey i closest_intent_bin)
      else
        some (fs, b, i)

/-- The bin-mismatch pass over one group, after exact matching. -/
def mismatchPass (class_name cable_type : String) (bin_slop_m : ℚ) (b i : BinMap) :
    Option (List CrossFinding × BinMap × BinMap) :=
  (keysOf b).foldlM (mismatchStep class_name cable_type bin_slop_m (keysOf i)) ([], b, i)

/-- Exact matching then bin-mismatch resolution for one group. -/
def reconcileGroup (bin_slop_m : ℚ) (class_name cable_type : String) (b i : BinMap) :
    Option (List CrossFinding × BinMap × BinMap) := do
  let (b, i) ← exactPass b i
  mismatchPass class_name cable_type bin_slop_m b i

def mkMissingFinding (class_name cable_type : String) (length_bin required_count : ℤ) :
    CrossFinding :=
  { severity := "FAIL"
    code := "MISSING_LINK"
    message := class_name ++ " requires " ++ toString required_count ++ " × " ++ cable_type ++
      " @ " ++ toString length_bin ++ " m; BOM provides 0"
    context := [("class", CtxVal.S class_name), ("cable_type", CtxVal.S cable_type),
      ("length_bin_m", CtxVal.I length_bin), ("required", CtxVal.I required_count),
      ("provided", CtxVal.I 0)] }

def mkPhantomFinding (class_name cable_type : String) (length_bin provided_count : ℤ) :
    CrossFinding :=
  { severity := "WARN"
    code := "PHANTOM_ITEM"
    message := class_name ++ " BOM has " ++ toString provided_count ++ " × " ++ cable_type ++
      " @ " ++ toString length_bin ++ " m; intent requires 0"
    context := [("class", CtxVal.S class_name), ("cable_type", CtxVal.S cable_type),
      ("length_bin_m", CtxVal.I length_bin), ("required", CtxVal.I 0),
      ("provided", CtxVal.I provided_count)] }

/-- The per-group phase of `_reconcile_bom_vs_intent`: every
(class, cable_type) group, in iteration order, resolved to its mismatch
findings and its two leftover bin maps. -/
def reconcileResults (bom_structure intent_structure : ClassMap) (bin_slop_m : ℚ) :
    Option (List (String × String × (List CrossFinding × BinMap × BinMap))) :=
  (initGroupPairs bom_structure intent_structure).mapM (fun g =>
    (reconcileGroup bin_slop_m g.1 g.2.1 g.2.2.1 g.2.2.2).map (fun r => (g.1, g.2.1, r)))

/-- `_reconcile_bom_vs_intent`: the mismatch findings of every group in
group order, then `MISSING_LINK` for every remaining intent count > 0,
then `PHANTOM_ITEM` for every remaining BOM count > 0.  A `none` result
is a raised `KeyError`. -/
def reconcile_bom_vs_intent (bom_structure intent_structure : ClassMap)
    (policy : CrossPolicy) : Option (List CrossFinding) :=
  match reconcileResults bom_structure intent_structure (binSlopOf policy) with
  | Option.none => Option.none
  | some results =>
      some (results.flatMap (fun r => r.2.2.1)
        ++ results.flatMap (fun r =>
            r.2.2.2.2.filterMap (fun e =>
              if e.2 > 0 then some (mkMissingFinding r.1 r.2.1 e.1 e.2) else Option.none))
        ++ results.flatMap (fun r =>
            r.2.2.2.1.filterMap (fun e =>
              if e.2 > 0 then some (mkPhantomFinding r.1 r.2.1 e.1 e.2) else Option.none)))

/-- Well-formedness inherited from Python dicts: keys are unique at every
nesting level. -/
def WFBinMap (m : BinMap) : Prop := (keysOf m).Nodup

def WFTypeMap (t : TypeMap) : Prop :=
  (keysOf t).Nodup ∧ ∀ p ∈ t, WFBinMap p.2

def WFClassMap (c : ClassMap) : Prop :=
  (keysOf c).Nodup ∧ ∀ p ∈ c, WFTypeMap p.2

instance : DecidablePred WFBinMap := fun m =>
  inferInstanceAs (Decidable ((keysOf m).Nodup))

instance : DecidablePred WFTypeMap := fun t =>
  inferInstanceAs (Decidable (_ ∧ _))

instance : DecidablePred WFClassMap := fun c =>
  inferInstanceAs (Decidable (_ ∧ _))

/-- `s.get(c, {}).get(t, {}).get(bin)`: the count a normalized structure
holds at one (class, cable_type, length_bin) key, `none` when absent. -/
def lookupCount (s : ClassMap) (c t : String) (bin : ℤ) : Option ℤ :=
  getVal (getValD (getValD s c []) t []) bin

/-- Every entry of `a` is present in `b` with the same count. -/
def countsSubset (a b : ClassMap) : Bool :=
  a.all (fun cEntry => cEntry.2.all (fun tEntry => tEntry.2.all (fun binEntry =>
    decide (lookupCount b cEntry.1 tEntry.1 binEntry.1 = some binEntry.2))))

/-- The two structures hold the same multiset: equal counts at every
(class, cable_type, length_bin) key, whatever the dict insertion order of
either side. -/
def sameCounts (a b : ClassMap) : Bool :=
  countsSubset a b && countsSubset b a

/-! ### validation/cabling.py — string formatting helpers -/

/-- The floor of a rational, computed on its reduced fraction. -/
def ratFloorZ (q : ℚ) : ℤ := q.num.fdiv q.den

/-- Round to the nearest integer, ties to even (Python float formatting). -/
def roundHalfEven (q : ℚ) : ℤ :=
  let f := ratFloorZ q
  let frac := q - (f : ℚ)
  if frac < 1 / 2 then f
  else if 1 / 2 < frac then f + 1
  else if f % 2 = 0 then f else f + 1

def fmtTenths (t : ℤ) : String :=
  toString (t / 10) ++ "." ++ toString (t % 10)

/-- Python `format(q, ".1f")`. -/
def formatFixed1 (q : ℚ) : String :=
  let t := roundHalfEven (q * 10)
  if t < 0 then "-" ++ fmtTenths (-t) else fmtTenths t

/-- Python `format(q, ".1%")`. -/
def formatPercent1 (q : ℚ) : String := formatFixed1 (q * 100) ++ "%"

/-- Python `str` of a float value. -/
def pyFloatStr (q : ℚ) : String :=
  if q.den = 1 then toString q.num ++ ".0" else formatFixed1 q

/-! ### validation/cabling.py — records (network_loader) and findings -/

structure NicRec where
  type : String
  count : ℤ
deriving DecidableEq, Repr

structure NodeRec where
  id : String
  rack_id : String
  hostname : Option String
  nics : List NicRec
deriving DecidableEq, Repr

structure TorPorts where
  sfp28_total : ℤ
  qsfp28_total : ℤ
deriving DecidableEq, Repr

structure TorRec where
  id : String
  rack_id : String
  model : String
  ports : TorPorts
deriving DecidableEq, Repr

structure SpinePorts where
  qsfp28_total : ℤ
deriving DecidableEq, Repr

structure SpineRec where
  id : String
  model : String
  ports : SpinePorts
deriving DecidableEq, Repr

structure TopologyRackRec where
  rack_id : String
  tor_id : String
  uplinks_qsfp28 : ℤ
deriving DecidableEq, Repr

structure TopologyWanRec where
  uplinks_cat6a : ℤ
deriving DecidableEq, Repr

structure TopologyRec where
  spine : SpineRec
  racks : List TopologyRackRec
  wan : TopologyWanRec
deriving DecidableEq, Repr

structure SiteRackRec where
  id : String
  grid : Option (ℤ × ℤ)
  tor_position_u : Option ℤ
deriving DecidableEq, Repr

structure SiteRec where
  racks : List SiteRackRec
deriving DecidableEq, Repr

/-- `Finding` (validation/cabling.py): severity is one of the literal
strings FAIL, WARN, INFO. -/
structure Finding where
  severity : String
  code : String
  message : String
  context : List (String × CtxVal)
deriving DecidableEq, Repr

/-- `Report`: the summary is a dict of counters (insertion-ordered). -/
structure Report where
  summary : List (String × ℤ)
  findings : List Finding
deriving DecidableEq, Repr

/-! ### validation/cabling.py — the policy dict produced by `_load_policy`

`_load_policy` merges a policy file section-wise over built-in defaults.
The merged dict is modelled as well-typed records holding exactly the keys
of the built-in defaults (plus the optional `tile_m` heuristics key a file
may add); the dynamically-typed branches of the source (isinstance checks
on values of the wrong type) are unreachable in this typed model. -/

structure VDefaults where
  nodes_25g_per_node : ℤ
  mgmt_rj45_per_node : ℤ
  tor_uplink_qsfp28_per_tor : ℤ
  spares_fraction : ℚ
deriving DecidableEq, Repr

structure VSiteDefaults where
  num_racks : ℤ
  nodes_per_rack : ℤ
  uplinks_per_rack : ℤ
  mgmt_rj45_per_node : ℤ
  wan_cat6a : ℤ
deriving DecidableEq, Repr

structure VMediaRule where
  dac_max_m : ℤ
  bins_m : List ℤ
deriving DecidableEq, Repr

structure VMediaRules where
  sfp28_25g : VMediaRule
  qsfp28_100g : VMediaRule
  rj45_cat6a : VMediaRule
deriving DecidableEq, Repr

structure VRedundancy where
  node_dual_homing : Bool
  tor_uplinks_min : ℤ
deriving DecidableEq, Repr

structure VOversubscription where
  max_leaf_to_spine_ratio : ℚ
deriving DecidableEq, Repr

structure VHeuristics where
  same_rack_leaf_to_node_m : ℚ
  adjacent_rack_leaf_to_spine_m : ℚ
  non_adjacent_rack_leaf_to_spine_m : ℚ
  slack_factor : ℚ
  tile_m : Option ℚ
deriving DecidableEq, Repr

structure VPolicy where
  defaults : VDefaults
  site_defaults : VSiteDefaults
  media_rules : VMediaRules
  redundancy : VRedundancy
  oversubscription : VOversubscription
  heuristics : VHeuristics
deriving DecidableEq, Repr

/-- The built-in defaults dict of `_load_policy`. -/
def policyDefaults : VPolicy :=
  { defaults := ⟨2, 1, 4, 1 / 10⟩
    site_defaults := ⟨10, 20, 4, 1, 2⟩
    media_rules := ⟨⟨3, [1, 3, 5, 10, 30]⟩, ⟨3, [1, 3, 5, 10, 30]⟩,
      ⟨100, [1, 3, 5, 10, 30, 100]⟩⟩
    redundancy := ⟨false, 2⟩
    oversubscription := ⟨4⟩
    heuristics := ⟨2, 10, 30, 6 / 5, Option.none⟩ }

/-- A parsed policy file: each section optional, each known key optional
(the section-wise `dict.update` of `_load_policy` overrides only the keys
the file provides; a provided media class replaces the whole class entry). -/
structure RawDefaults where
  nodes_25g_per_node : Option ℤ
  mgmt_rj45_per_node : Option ℤ
  tor_uplink_qsfp28_per_tor : Option ℤ
  spares_fraction : Option ℚ
deriving DecidableEq, Repr

structure RawSiteDefaults where
  num_racks : Option ℤ
  nodes_per_rack : Option ℤ
  uplinks_per_rack : Option ℤ
  mgmt_rj45_per_node : Option ℤ
  wan_cat6a : Option ℤ
deriving DecidableEq, Repr

structure RawMediaRules where
  sfp28_25g : Option VMediaRule
  qsfp28_100g : Option VMediaRule
  rj45_cat6a : Option VMediaRule
deriving DecidableEq, Repr

structure RawRedundancy where
  node_dual_homing : Option Bool
  tor_uplinks_min : Option ℤ
deriving DecidableEq, Repr

structure RawOversubscription where
  max_leaf_to_spine_ratio : Option ℚ
deriving DecidableEq, Repr

structure RawHeuristics where
  same_rack_leaf_to_node_m : Option ℚ
  adjacent_rack_leaf_to_spine_m : Option ℚ
  non_adjacent_rack_leaf_to_spine_m : Option ℚ
  slack_factor : Option ℚ
  tile_m : Option ℚ
deriving DecidableEq, Repr

structure RawPolicy where
  defaults : Option RawDefaults
  site_defaults : Option RawSiteDefaults
  media_rules : Option RawMediaRules
  redundancy : Option RawRedundancy
  oversubscription : Option RawOversubscription
  heuristics : Option RawHeuristics
deriving DecidableEq, Repr

/-- The section-wise merge of `_load_policy`: for every section the file
provides, update the keys it provides. -/
def mergePolicy (d : VPolicy) (o : RawPolicy) : VPolicy :=
  { defaults :=
      match o.defaults with
      | Option.none => d.defaults
      | some od =>
          ⟨od.nodes_25g_per_node.getD d.defaults.nodes_25g_per_node,
           od.mgmt_rj45_per_node.getD d.defaults.mgmt_rj45_per_node,
           od.tor_uplink_qsfp28_per_tor.getD d.defaults.tor_uplink_qsfp28_per_tor,
           od.spares_fraction.getD d.defaults.spares_fraction⟩
    site_defaults :=
      match o.site_defaults with
      | Option.none => d.site_defaults
      | some os =>
          ⟨os.num_racks.getD d.site_defaults.num_racks,
           os.nodes_per_rack.getD d.site_defaults.nodes_per_rack,
           os.uplinks_per_rack.getD d.site_defaults.uplinks_per_rack,
           os.mgmt_rj45_per_node.getD d.site_defaults.mgmt_rj45_per_node,
           os.wan_cat6a.getD d.site_defaults.wan_cat6a⟩
    media_rules :=
      match o.media_rules with
      | Option.none => d.media_rules
      | some om =>
          ⟨om.sfp28_25g.getD d.media_rules.sfp28_25g,
           om.qsfp28_100g.getD d.media_rules.qsfp28_100g,
           om.rj45_cat6a.getD d.media_rules.rj45_cat6a⟩
    redundancy :=
      match o.redundancy with
      | Option.none => d.redundancy
      | some orr =>
          ⟨orr.node_dual_homing.getD d.redundancy.node_dual_homing,
           orr.tor_uplinks_min.getD d.redundancy.tor_uplinks_min⟩
    oversubscription :=
      match o.oversubscription with
      | Option.none => d.oversubscription
      | some oo => ⟨oo.max_leaf_to_spine_ratio.getD d.oversubscription.max_leaf_to_spine_ratio⟩
    heuristics :=
      match o.heuristics with
      | Option.none => d.heuristics
      | some oh =>
          ⟨oh.same_rack_leaf_to_node_m.getD d.heuristics.same_rack_leaf_to_node_m,
           oh.adjacent_rack_leaf_to_spine_m.getD d.heuristics.adjacent_rack_leaf_to_spine_m,
           oh.non_adjacent_rack_leaf_to_spine_m.getD d.heuristics.non_adjacent_rack_leaf_to_spine_m,
           oh.slack_factor.getD d.heuristics.slack_factor,
           oh.tile_m.orElse (fun _ => d.heuristics.tile_m)⟩ }

/-- The outcome of a Python loader call: success, `FileNotFoundError`, or
any other raised exception with its message. -/
inductive LoadResult (α : Type) where
  | ok (value : α)
  | fileNotFound
  | raised (msg : String)
deriving DecidableEq, Repr

/-- `_load_policy`: no path means defaults; a missing file is tolerated
(`except FileNotFoundError: pass`) and falls back to defaults; any other
failure while reading or parsing the policy file (malformed YAML, a
non-dict document) is NOT caught and propagates (`error`); a parsed file
is merged section-wise over the defaults. -/
def load_policy (policy_path : Option (LoadResult RawPolicy)) : Except String VPolicy :=
  match policy_path with
  | Option.none => Except.ok policyDefaults
  | some LoadResult.fileNotFound => Except.ok policyDefaults
  | some (LoadResult.raised msg) => Except.error msg
  | some (LoadResult.ok raw) => Except.ok (mergePolicy policyDefaults raw)

/-! ### validation/cabling.py — the seven validation passes -/

/-- `nodes_by_rack.get(rack_id, [])`: the nodes of one rack, in input
order (the Python grouping dict preserves it). -/
def nodesInRack (nodes : List NodeRec) (rid : String) : List NodeRec :=
  nodes.filter (fun n => n.rack_id == rid)

/-- Required SFP28 ports of a rack: declared SFP28 NIC counts, or the
policy default for a node that declares no NICs. -/
def requiredSfp28 (policy : VPolicy) (rack_nodes : List NodeRec) : ℤ :=
  rack_nodes.foldl (fun acc node =>
    if node.nics ≠ [] then
      acc + node.nics.foldl (fun a nic =>
        if nic.type == "SFP28" then a + nic.count else a) 0
    else acc + policy.defaults.nodes_25g_per_node) 0

def validate_ports (topology : TopologyRec) (tors : List (String × TorRec))
    (nodes : List NodeRec) (policy : VPolicy) : List Finding :=
  let sfp28Findings := topology.racks.flatMap (fun rack =>
    let required_sfp28 := requiredSfp28 policy (nodesInRack nodes rack.rack_id)
    match getVal tors rack.tor_id with
    | Option.none =>
        [⟨"FAIL", "MISSING_TOR",
          "rack " ++ rack.rack_id ++ " references unknown ToR " ++ rack.tor_id,
          [("rack_id", CtxVal.S rack.rack_id), ("tor_id", CtxVal.S rack.tor_id)]⟩]
    | some tor =>
        let available_sfp28 := tor.ports.sfp28_total
        if required_sfp28 > available_sfp28 then
          [⟨"FAIL", "PORT_CAPACITY_TOR_SFP28",
            "rack " ++ rack.rack_id ++ " requires " ++ toString required_sfp28 ++
              " SFP28 ports, ToR provides " ++ toString available_sfp28 ++
              " (deficit " ++ toString (required_sfp28 - available_sfp28) ++ ")",
            [("rack_id", CtxVal.S rack.rack_id),
             ("required_sfp28", CtxVal.I required_sfp28),
             ("available_sfp28", CtxVal.I available_sfp28),
             ("deficit", CtxVal.I (required_sfp28 - available_sfp28))]⟩]
        else [])
  let qsfp28Findings := topology.racks.flatMap (fun rack =>
    match getVal tors rack.tor_id with
    | Option.none => []
    | some tor =>
        if rack.uplinks_qsfp28 > tor.ports.qsfp28_total then
          [⟨"FAIL", "PORT_CAPACITY_TOR_QSFP28",
            "rack " ++ rack.rack_id ++ " requires " ++ toString rack.uplinks_qsfp28 ++
              " QSFP28 uplinks, ToR provides " ++ toString tor.ports.qsfp28_total ++
              " (deficit " ++ toString (rack.uplinks_qsfp28 - tor.ports.qsfp28_total) ++ ")",
            [("rack_id", CtxVal.S rack.rack_id),
             ("required_qsfp28", CtxVal.I rack.uplinks_qsfp28),
             ("available_qsfp28", CtxVal.I tor.ports.qsfp28_total),
             ("deficit", CtxVal.I (rack.uplinks_qsfp28 - tor.ports.qsfp28_total))]⟩]
        else [])
  let total_uplinks := topology.racks.foldl (fun a r => a + r.uplinks_qsfp28) 0
  let spine_capacity := topology.spine.ports.qsfp28_total
  let spineFindings :=
    if total_uplinks > spine_capacity then
      [⟨"FAIL", "PORT_CAPACITY_SPINE_QSFP28",
        "total uplinks " ++ toString total_uplinks ++ " exceed spine capacity " ++
          toString spine_capacity ++ " (deficit " ++
          toString (total_uplinks - spine_capacity) ++ ")",
        [("total_uplinks", CtxVal.I total_uplinks),
         ("spine_capacity", CtxVal.I spine_capacity),
         ("deficit", CtxVal.I (total_uplinks - spine_capacity))]⟩]
    else if (total_uplinks : ℚ) > (spine_capacity : ℚ) * (19 / 20) then
      [⟨"WARN", "PORT_CAPACITY_SPINE_NEAR_LIMIT",
        "spine utilization " ++ formatPercent1 ((total_uplinks : ℚ) / (spine_capacity : ℚ)) ++
          " is near capacity limit",
        [("total_uplinks", CtxVal.I total_uplinks),
         ("spine_capacity", CtxVal.I spine_capacity),
         ("utilization", CtxVal.Q ((total_uplinks : ℚ) / (spine_capacity : ℚ)))]⟩]
    else []
  sfp28Findings ++ qsfp28Findings ++ spineFindings ++
    [⟨"INFO", "MGMT_RJ45_UNVALIDATED",
      "management RJ45 ports not validated (no mgmt switch inventory)", []⟩]

def validate_compatibility (topology : TopologyRec) (tors : List (String × TorRec))
    (nodes : List NodeRec) (_policy : VPolicy) : List Finding :=
  nodes.flatMap (fun node =>
    if node.nics = [] then []
    else node.nics.flatMap (fun nic =>
      if nic.type == "SFP28" then
        match topology.racks.find? (fun r => r.rack_id == node.rack_id) with
        | Option.none =>
            [⟨"FAIL", "NIC_COMPATIBILITY_NO_RACK",
              "node " ++ node.id ++ " SFP28 NIC has no rack mapping",
              [("node_id", CtxVal.S node.id), ("nic_type", CtxVal.S nic.type)]⟩]
        | some rack =>
            let bad := match getVal tors rack.tor_id with
              | Option.none => true
              | some tor => tor.ports.sfp28_total = 0
            if bad then
              [⟨"FAIL", "NIC_COMPATIBILITY_SFP28",
                "node " ++ node.id ++ " SFP28 NIC cannot terminate (no SFP28 ports on ToR)",
                [("node_id", CtxVal.S node.id), ("tor_id", CtxVal.S rack.tor_id),
                 ("nic_type", CtxVal.S nic.type)]⟩]
            else []
      else if nic.type == "QSFP28" then
        [⟨"FAIL", "NIC_COMPATIBILITY_QSFP28_UNSUPPORTED",
          "node " ++ node.id ++ " QSFP28 NIC not supported (no breakout policy)",
          [("node_id", CtxVal.S node.id), ("nic_type", CtxVal.S nic.type)]⟩]
      else if nic.type == "RJ45" then
        [⟨"WARN", "NIC_COMPATIBILITY_RJ45_UNMODELED",
          "node " ++ node.id ++ " RJ45 mgmt NIC termination not modeled",
          [("node_id", CtxVal.S node.id), ("nic_type", CtxVal.S nic.type)]⟩]
      else []))

/-- Edge bandwidth of a rack in Gbps: 25 per SFP28 NIC, 100 per QSFP28
NIC, policy default × 25 for a node without declared NICs. -/
def edgeBwGbps (policy : VPolicy) (rack_nodes : List NodeRec) : ℤ :=
  rack_nodes.foldl (fun acc node =>
    if node.nics ≠ [] then
      acc + node.nics.foldl (fun a nic =>
        if nic.type == "SFP28" then a + nic.count * 25
        else if nic.type == "QSFP28" then a + nic.count * 100
        else a) 0
    else acc + policy.defaults.nodes_25g_per_node * 25) 0

/-- The findings the oversubscription pass emits for one rack. -/
def oversubRackFindings (policy : VPolicy) (nodes : List NodeRec)
    (rack : TopologyRackRec) : List Finding :=
  let edge_bw_gbps := edgeBwGbps policy (nodesInRack nodes rack.rack_id)
  let uplink_bw_gbps := rack.uplinks_qsfp28 * 100
  if uplink_bw_gbps = 0 ∧ edge_bw_gbps > 0 then
    [⟨"FAIL", "OVERSUB_NO_UPLINKS",
      "rack " ++ rack.rack_id ++ " has edge bandwidth " ++ toString edge_bw_gbps ++
        " Gbps but no uplinks",
      [("rack_id", CtxVal.S rack.rack_id), ("edge_gbps", CtxVal.I edge_bw_gbps),
       ("uplink_gbps", CtxVal.I uplink_bw_gbps)]⟩]
  else if uplink_bw_gbps > 0 then
    let ratio : ℚ := (edge_bw_gbps : ℚ) / (uplink_bw_gbps : ℚ)
    let max_ratio := policy.oversubscription.max_leaf_to_spine_ratio
    if ratio > max_ratio then
      let excess_pct := (ratio - max_ratio) / max_ratio
      if excess_pct ≤ 1 / 4 then
        [⟨"WARN", "OVERSUB_RATIO",
          "rack " ++ rack.rack_id ++ " edge " ++ toString edge_bw_gbps ++
            " Gbps, uplink " ++ toString uplink_bw_gbps ++ " Gbps → " ++
            formatFixed1 ratio ++ ":1 exceeds policy " ++ pyFloatStr max_ratio ++ ":1",
          [("rack_id", CtxVal.S rack.rack_id), ("edge_gbps", CtxVal.I edge_bw_gbps),
           ("uplink_gbps", CtxVal.I uplink_bw_gbps), ("ratio", CtxVal.Q ratio),
           ("policy_max", CtxVal.Q max_ratio)]⟩]
      else
        [⟨"FAIL", "OVERSUB_RATIO_CRITICAL",
          "rack " ++ rack.rack_id ++ " edge " ++ toString edge_bw_gbps ++
            " Gbps, uplink " ++ toString uplink_bw_gbps ++ " Gbps → " ++
            formatFixed1 ratio ++ ":1 critically exceeds policy " ++
            pyFloatStr max_ratio ++ ":1",
          [("rack_id", CtxVal.S rack.rack_id), ("edge_gbps", CtxVal.I edge_bw_gbps),
           ("uplink_gbps", CtxVal.I uplink_bw_gbps), ("ratio", CtxVal.Q ratio),
           ("policy_max", CtxVal.Q max_ratio)]⟩]
    else []
  else []

def validate_oversubscription (topology : TopologyRec) (_tors : List (String × TorRec))
    (nodes : List NodeRec) (policy : VPolicy) : List Finding :=
  topology.racks.flatMap (oversubRackFindings policy nodes)

def validate_completeness (topology : TopologyRec) (tors : List (String × TorRec))
    (nodes : List NodeRec) (site : Option SiteRec) (_policy : VPolicy) : List Finding :=
  let torFindings := topology.racks.flatMap (fun rack =>
    match getVal tors rack.tor_id with
    | Option.none =>
        [⟨"FAIL", "COMPLETENESS_MISSING_TOR",
          "topology rack " ++ rack.rack_id ++ " references unknown ToR " ++ rack.tor_id,
          [("rack_id", CtxVal.S rack.rack_id), ("tor_id", CtxVal.S rack.tor_id)]⟩]
    | some tor =>
        if tor.rack_id ≠ rack.rack_id then
          [⟨"FAIL", "COMPLETENESS_TOR_RACK_MISMATCH",
            "ToR " ++ rack.tor_id ++ " rack_id " ++ tor.rack_id ++
              " does not match topology rack_id " ++ rack.rack_id,
            [("tor_id", CtxVal.S rack.tor_id), ("tor_rack_id", CtxVal.S tor.rack_id),
             ("topology_rack_id", CtxVal.S rack.rack_id)]⟩]
        else [])
  let topology_rack_ids := topology.racks.map TopologyRackRec.rack_id
  let site_rack_ids := match site with
    | some s => s.racks.map SiteRackRec.id
    | Option.none => []
  let nodeFindings := nodes.flatMap (fun node =>
    if node.rack_id ∈ topology_rack_ids ∨ node.rack_id ∈ site_rack_ids then []
    else
      [⟨"FAIL", "COMPLETENESS_NODE_RACK_MISSING",
        "node " ++ node.id ++ " references unknown rack " ++ node.rack_id,
        [("node_id", CtxVal.S node.id), ("rack_id", CtxVal.S node.rack_id)]⟩])
  let spineFindings :=
    if topology.spine.ports.qsfp28_total ≤ 0 then
      [⟨"FAIL", "COMPLETENESS_SPINE_NO_PORTS", "spine has no QSFP28 ports defined",
        [("spine_id", CtxVal.S topology.spine.id)]⟩]
    else []
  torFindings ++ nodeFindings ++ spineFindings

/-! The lengths pass.  It is the only pass that can raise: `max(bins)` on
an empty bin list is a `ValueError`, and the `slack_factor` local read by
the RJ45 loop is only bound by an earlier SFP28 iteration or an earlier
positioned-rack iteration, so reading it unbound is a `NameError`. -/

/-- The rack position dict of the lengths pass (racks with a grid). -/
def rackPositions (site : SiteRec) : List (String × (ℤ × ℤ)) :=
  site.racks.filterMap (fun r => r.grid.map (fun g => (r.id, g)))

/-- `flatMapE l f`: left-to-right accumulation that stops at the first
raised exception (loop bodies that can raise). -/
def flatMapE {α β : Type} (l : List α) (f : α → Except String (List β)) :
    Except String (List β) :=
  l.foldlM (fun acc a => (f a).map (fun fs => acc ++ fs)) []

def lengthsSfpNicFindings (policy : VPolicy) (rack : TopologyRackRec) (node : NodeRec)
    (nic : NicRec) : Except String (List Finding) :=
  if nic.type == "SFP28" then
    let distance := apply_slack policy.heuristics.same_rack_leaf_to_node_m
      policy.heuristics.slack_factor
    let dac_max := policy.media_rules.sfp28_25g.dac_max_m
    let bins := policy.media_rules.sfp28_25g.bins_m
    match select_length_bin distance bins with
    | Option.none =>
        match pyMax bins with
        | Option.none => Except.error "ValueError: max() arg is an empty sequence"
        | some mx =>
            Except.ok [⟨"FAIL", "LENGTH_EXCEEDS_MAX_BIN",
              "node " ++ node.id ++ " SFP28 requires " ++ formatFixed1 distance ++
                "m but exceeds maximum bin " ++ toString mx ++ "m",
              [("node_id", CtxVal.S node.id), ("rack_id", CtxVal.S rack.rack_id),
               ("distance_m", CtxVal.Q distance), ("bin", CtxVal.I mx),
               ("media_class", CtxVal.S "SFP28")]⟩]
    | some selected_bin =>
        if distance > (dac_max : ℚ) then
          if bins.filter (fun b => b > dac_max) = [] then
            Except.ok [⟨"FAIL", "LENGTH_EXCEEDS_DAC_NO_AOC_BINS",
              "node " ++ node.id ++ " SFP28 requires " ++ formatFixed1 distance ++
                "m, exceeds DAC limit " ++ toString dac_max ++
                "m but no AOC/fiber bins configured",
              [("node_id", CtxVal.S node.id), ("rack_id", CtxVal.S rack.rack_id),
               ("distance_m", CtxVal.Q distance), ("bin", CtxVal.I selected_bin),
               ("media_class", CtxVal.S "SFP28")]⟩]
          else Except.ok []
        else Except.ok []
  else Except.ok []

def lengthsRackUplinkFindings (policy : VPolicy) (rack : TopologyRackRec)
    (pos : ℤ × ℤ) : Except String (List Finding) :=
  let tile_m := policy.heuristics.tile_m.getD 1
  let cable_length := apply_slack (compute_rack_distance_m pos (0, 0) tile_m)
    policy.heuristics.slack_factor
  let dac_max := policy.media_rules.qsfp28_100g.dac_max_m
  let bins := policy.media_rules.qsfp28_100g.bins_m
  match select_length_bin cable_length bins with
  | Option.none =>
      match pyMax bins with
      | Option.none => Except.error "ValueError: max() arg is an empty sequence"
      | some mx =>
          Except.ok [⟨"FAIL", "LENGTH_EXCEEDS_MAX_BIN",
            "rack " ++ rack.rack_id ++ " uplinks require " ++ formatFixed1 cable_length ++
              "m but exceed maximum bin " ++ toString mx ++ "m",
            [("rack_id", CtxVal.S rack.rack_id), ("distance_m", CtxVal.Q cable_length),
             ("bin", CtxVal.I mx), ("media_class", CtxVal.S "QSFP28")]⟩]
  | some selected_bin =>
      if cable_length > (dac_max : ℚ) then
        if bins.filter (fun b => b > dac_max) = [] then
          Except.ok [⟨"FAIL", "LENGTH_EXCEEDS_DAC_NO_AOC_BINS",
            "rack " ++ rack.rack_id ++ " uplinks require " ++ formatFixed1 cable_length ++
              "m, exceed DAC limit " ++ toString dac_max ++
              "m but no AOC/fiber bins configured",
            [("rack_id", CtxVal.S rack.rack_id), ("distance_m", CtxVal.Q cable_length),
             ("bin", CtxVal.I selected_bin), ("media_class", CtxVal.S "QSFP28")]⟩]
        else Except.ok []
      else Except.ok []

/-- Whether the leaf→node loop bound the `slack_factor` local (it assigns
it for every SFP28 NIC it visits). -/
def sfpProcessedInLengths (topology : TopologyRec) (nodes : List NodeRec) : Bool :=
  topology.racks.any (fun rack =>
    (nodesInRack nodes rack.rack_id).any (fun node =>
      node.nics.any (fun nic => nic.type == "SFP28")))

def lengthsRj45NicFindings (policy : VPolicy) (slackAssigned : Bool)
    (rack : TopologyRackRec) (node : NodeRec) (nic : NicRec) :
    Except String (List Finding) :=
  if nic.type == "RJ45" then
    if slackAssigned = false then
      Except.error "NameError: name slack_factor is not defined"
    else
      let mgmt_distance := apply_slack policy.heuristics.same_rack_leaf_to_node_m
        policy.heuristics.slack_factor
      let rj45_bins := policy.media_rules.rj45_cat6a.bins_m
      match select_length_bin mgmt_distance rj45_bins with
      | some selected_bin =>
          if 100 < selected_bin then
            Except.ok [⟨"WARN", "RJ45_BIN_GT_100M",
              "node " ++ node.id ++ " RJ45 connection uses bin " ++ toString selected_bin ++
                "m > 100m (speed may downshift)",
              [("node_id", CtxVal.S node.id), ("rack_id", CtxVal.S rack.rack_id),
               ("distance_m", CtxVal.Q mgmt_distance), ("bin", CtxVal.I selected_bin),
               ("media_class", CtxVal.S "RJ45")]⟩]
          else Except.ok []
      | Option.none =>
          match pyMax rj45_bins with
          | Option.none => Except.error "ValueError: max() arg is an empty sequence"
          | some mx =>
              Except.ok [⟨"FAIL", "LENGTH_EXCEEDS_MAX_BIN",
                "node " ++ node.id ++ " RJ45 requires " ++ formatFixed1 mgmt_distance ++
                  "m but exceeds maximum bin " ++ toString mx ++ "m",
                [("node_id", CtxVal.S node.id), ("rack_id", CtxVal.S rack.rack_id),
                 ("distance_m", CtxVal.Q mgmt_distance), ("bin", CtxVal.I mx),
                 ("media_class", CtxVal.S "RJ45")]⟩]
  else Except.ok []

def validate_lengths (topology : TopologyRec) (_tors : List (String × TorRec))
    (nodes : List NodeRec) (site : Option SiteRec) (policy : VPolicy) :
    Except String (List Finding) :=
  match site with
  | Option.none =>
      Except.ok [⟨"INFO", "SITE_GEOMETRY_MISSING",
        "geometry-based length checks skipped (no site.yaml)", []⟩]
  | some s =>
    let rack_positions := rackPositions s
    (flatMapE topology.racks (fun rack =>
      flatMapE (nodesInRack nodes rack.rack_id) (fun node =>
        if node.nics = [] then Except.ok []
        else flatMapE node.nics (lengthsSfpNicFindings policy rack node)))).bind
    (fun leafNodeFindings =>
      (flatMapE topology.racks (fun rack =>
        match getVal rack_positions rack.rack_id with
        | Option.none => Except.ok []
        | some pos => lengthsRackUplinkFindings policy rack pos)).bind
      (fun leafSpineFindings =>
        let slackAssigned := sfpProcessedInLengths topology nodes ||
          topology.racks.any (fun rack => (getVal rack_positions rack.rack_id).isSome)
        (flatMapE topology.racks (fun rack =>
          flatMapE (nodesInRack nodes rack.rack_id) (fun node =>
            if node.nics = [] then Except.ok []
            else flatMapE node.nics
              (lengthsRj45NicFindings policy slackAssigned rack node)))).bind
        (fun rj45Findings =>
          Except.ok (leafNodeFindings ++ leafSpineFindings ++ rj45Findings))))

def validate_redundancy (topology : TopologyRec) (_tors : List (String × TorRec))
    (nodes : List NodeRec) (policy : VPolicy) : List Finding :=
  let dualFindings :=
    if policy.redundancy.node_dual_homing then
      nodes.flatMap (fun node =>
        let total_nics :=
          if node.nics ≠ [] then
            node.nics.foldl (fun a nic =>
              if nic.type == "SFP28" || nic.type == "QSFP28" then a + nic.count else a) 0
          else policy.defaults.nodes_25g_per_node
        if total_nics % 2 ≠ 0 then
          [⟨"FAIL", "REDUNDANCY_DUAL_HOMING",
            "node " ++ node.id ++ " has " ++ toString total_nics ++
              " NICs, not divisible by 2 (dual homing required)",
            [("node_id", CtxVal.S node.id), ("nic_count", CtxVal.I total_nics)]⟩]
        else [])
    else []
  let uplinkFindings :=
    if policy.redundancy.tor_uplinks_min ≠ 0 then
      topology.racks.flatMap (fun rack =>
        if rack.uplinks_qsfp28 < policy.redundancy.tor_uplinks_min then
          [⟨"FAIL", "REDUNDANCY_TOR_UPLINKS",
            "rack " ++ rack.rack_id ++ " has " ++ toString rack.uplinks_qsfp28 ++
              " uplinks, minimum " ++ toString policy.redundancy.tor_uplinks_min ++
              " required (shortfall " ++
              toString (policy.redundancy.tor_uplinks_min - rack.uplinks_qsfp28) ++ ")",
            [("rack_id", CtxVal.S rack.rack_id), ("uplinks", CtxVal.I rack.uplinks_qsfp28),
             ("minimum", CtxVal.I policy.redundancy.tor_uplinks_min),
             ("shortfall", CtxVal.I
               (policy.redundancy.tor_uplinks_min - rack.uplinks_qsfp28))]⟩]
        else [])
    else []
  dualFindings ++ uplinkFindings

/-- Section B of `validate_policy_sanity` for one media class: bins
non-empty, positive, unique, ascending (each failure short-circuits the
later checks of the same class).  The non-integer half of the
`POLICY_BINS_INVALID` isinstance check cannot fire on typed bins. -/
def policyBinsFindings (media_type : String) (rule : VMediaRule) : List Finding :=
  let bins := rule.bins_m
  if bins = [] then
    [⟨"FAIL", "POLICY_BINS_EMPTY",
      "media_rules." ++ media_type ++ ".bins_m cannot be empty",
      [("media_type", CtxVal.S media_type)]⟩]
  else if bins.filter (fun b => b ≤ 0) ≠ [] then
    [⟨"FAIL", "POLICY_BINS_INVALID",
      "media_rules." ++ media_type ++ ".bins_m contains non-integer or non-positive values",
      [("media_type", CtxVal.S media_type),
       ("invalid_values", CtxVal.LI (bins.filter (fun b => b ≤ 0)))]⟩]
  else if bins.length ≠ bins.eraseDups.length then
    [⟨"FAIL", "POLICY_BINS_DUPLICATE",
      "media_rules." ++ media_type ++ ".bins_m contains duplicate values",
      [("media_type", CtxVal.S media_type),
       ("duplicates", CtxVal.LI (bins.eraseDups.filter (fun b => bins.count b > 1)))]⟩]
  else if bins ≠ List.insertionSort (· ≤ ·) bins then
    [⟨"FAIL", "POLICY_BINS_UNSORTED",
      "media_rules." ++ media_type ++ ".bins_m must be strictly ascending",
      [("media_type", CtxVal.S media_type), ("bins_m", CtxVal.LI bins)]⟩]
  else []

/-- Section C of `validate_policy_sanity` for one optical media class.
In the typed merged policy `dac_max_m` is always a present integer, so the
missing/non-integer branches cannot fire. -/
def policyDacFindings (media_type : String) (rule : VMediaRule) : List Finding :=
  if rule.dac_max_m ≤ 0 then
    [⟨"FAIL", "POLICY_DAC_MAX_INVALID",
      "media_rules." ++ media_type ++ ".dac_max_m must be an integer ≥ 1, got: " ++
        toString rule.dac_max_m,
      [("media_type", CtxVal.S media_type), ("value", CtxVal.I rule.dac_max_m)]⟩]
  else
    match pyMin rule.bins_m with
    | Option.none => []
    | some smallest =>
        if rule.dac_max_m < smallest then
          [⟨"WARN", "POLICY_DAC_MAX_LT_SMALLEST_BIN",
            "media_rules." ++ media_type ++ ".dac_max_m (" ++ toString rule.dac_max_m ++
              ") is less than smallest bin (" ++ toString smallest ++ ")",
            [("media_type", CtxVal.S media_type), ("dac_max_m", CtxVal.I rule.dac_max_m),
             ("smallest_bin", CtxVal.I smallest)]⟩]
        else []

/-- Section F of `validate_policy_sanity` for one defaults key (the
spares fraction is handled by section A; type violations cannot fire on
typed values). -/
def policyDefaultFindings (key : String) (value : ℤ) : List Finding :=
  if value < 0 then
    [⟨"FAIL", "POLICY_DEFAULT_NEGATIVE",
      "defaults." ++ key ++ " must be ≥ 0, got: " ++ toString value,
      [("key", CtxVal.S ("defaults." ++ key)), ("value", CtxVal.I value)]⟩]
  else []

/-- Section I of `validate_policy_sanity` for one heuristics key. -/
def policyHeuristicFindings (field : String) (constraint_desc : String)
    (ok : ℚ → Prop) [DecidablePred ok] (value : ℚ) : List Finding :=
  if ¬ ok value then
    [⟨"FAIL", "POLICY_HEURISTICS_INVALID",
      "heuristics." ++ field ++ " must be " ++ constraint_desc ++ ", got: " ++
        pyFloatStr value,
      [("key", CtxVal.S ("heuristics." ++ field)), ("value", CtxVal.Q value),
       ("constraint", CtxVal.S constraint_desc)]⟩]
  else []

/-- `validate_policy_sanity` over the typed merged policy.  The merged
policy always carries the three media classes and every defaults key, so
the WARN `POLICY_MEDIA_MISSING_DEFAULTED` / `POLICY_OVERSUB_DEFAULTED`
and the isinstance-type FAIL branches of the source cannot fire here. -/
def validate_policy_sanity (policy : VPolicy) : List Finding :=
  let spares := policy.defaults.spares_fraction
  let aFindings :=
    if ¬(0 ≤ spares ∧ spares ≤ 1) then
      [⟨"FAIL", "POLICY_SPARES_RANGE",
        "defaults.spares_fraction " ++ pyFloatStr spares ++
          " must be between 0.0 and 1.0",
        [("key", CtxVal.S "defaults.spares_fraction"), ("value", CtxVal.Q spares)]⟩]
    else []
  let mr := policy.media_rules
  let bFindings := policyBinsFindings "sfp28_25g" mr.sfp28_25g ++
    policyBinsFindings "qsfp28_100g" mr.qsfp28_100g ++
    policyBinsFindings "rj45_cat6a" mr.rj45_cat6a
  let cFindings := policyDacFindings "sfp28_25g" mr.sfp28_25g ++
    policyDacFindings "qsfp28_100g" mr.qsfp28_100g
  let over_100m := mr.rj45_cat6a.bins_m.filter (fun b => b > 100)
  let eFindings :=
    if over_100m ≠ [] then
      [⟨"WARN", "POLICY_RJ45_BINS_GT_100M",
        "rj45_cat6a.bins_m contains bins > 100m (may negotiate lower speeds)",
        [("bins_over_100m", CtxVal.LI over_100m)]⟩]
    else []
  let fFindings := policyDefaultFindings "nodes_25g_per_node" policy.defaults.nodes_25g_per_node ++
    policyDefaultFindings "mgmt_rj45_per_node" policy.defaults.mgmt_rj45_per_node ++
    policyDefaultFindings "tor_uplink_qsfp28_per_tor" policy.defaults.tor_uplink_qsfp28_per_tor
  let gFindings :=
    if policy.redundancy.tor_uplinks_min < 0 then
      [⟨"FAIL", "POLICY_REDUNDANCY_INVALID",
        "redundancy.tor_uplinks_min must be integer ≥ 0, got: " ++
          toString policy.redundancy.tor_uplinks_min,
        [("key", CtxVal.S "redundancy.tor_uplinks_min"),
         ("value", CtxVal.I policy.redundancy.tor_uplinks_min)]⟩]
    else []
  let ratio := policy.oversubscription.max_leaf_to_spine_ratio
  let hFindings :=
    if ratio ≤ 0 then
      [⟨"FAIL", "POLICY_OVERSUB_INVALID",
        "oversubscription.max_leaf_to_spine_ratio must be > 0, got: " ++ pyFloatStr ratio,
        [("key", CtxVal.S "oversubscription.max_leaf_to_spine_ratio"),
         ("value", CtxVal.Q ratio)]⟩]
    else []
  let h := policy.heuristics
  let iFindings :=
    policyHeuristicFindings "same_rack_leaf_to_node_m" "> 0" (fun x => x > 0)
      h.same_rack_leaf_to_node_m ++
    policyHeuristicFindings "adjacent_rack_leaf_to_spine_m" "> 0" (fun x => x > 0)
      h.adjacent_rack_leaf_to_spine_m ++
    policyHeuristicFindings "non_adjacent_rack_leaf_to_spine_m" "> 0" (fun x => x > 0)
      h.non_adjacent_rack_leaf_to_spine_m ++
    (match h.tile_m with
     | Option.none => []
     | some t => policyHeuristicFindings "tile_m" "> 0" (fun x => x > 0) t) ++
    policyHeuristicFindings "slack_factor" "≥ 1.0" (fun x => x ≥ 1) h.slack_factor
  aFindings ++ bFindings ++ cFindings ++ eFindings ++ fFindings ++ gFindings ++
    hFindings ++ iFindings

/-! ### validation/cabling.py — orchestration (`run_cabling_validation`) -/

def asLoad {α : Type} : LoadResult α → Except String α
  | LoadResult.ok v => Except.ok v
  | LoadResult.fileNotFound => Except.error "FileNotFoundError"
  | LoadResult.raised msg => Except.error msg

/-- `{tor.id: tor for tor in tors_list}`. -/
def torsDict (tors_list : List TorRec) : List (String × TorRec) :=
  tors_list.foldl (fun acc tor => setVal acc tor.id tor) []

/-- The try-block of `run_cabling_validation`: topology, tors and nodes in
order (any exception, a missing file included, escapes to the handler);
for the site only a `FileNotFoundError` is turned into no site, while any
other site failure also escapes to the handler. -/
def loadManifests (topologyLoad : LoadResult TopologyRec)
    (torsLoad : LoadResult (List TorRec × Option SpineRec))
    (nodesLoad : LoadResult (List NodeRec)) (siteLoad : LoadResult SiteRec) :
    Except String (TopologyRec × List (String × TorRec) × List NodeRec × Option SiteRec) := do
  let topology ← asLoad topologyLoad
  let torsPair ← asLoad torsLoad
  let nodes ← asLoad nodesLoad
  let tors := torsDict torsPair.1
  let site ← match siteLoad with
    | LoadResult.ok s => Except.ok (some s)
    | LoadResult.fileNotFound => Except.ok Option.none
    | LoadResult.raised msg => Except.error msg
  Except.ok (topology, tors, nodes, site)

/-- The single-finding report of the load-failure handler. -/
def mkDataLoadErrorReport (e : String) : Report :=
  { summary := [("pass", 0), ("warn", 0), ("fail", 1)]
    findings := [⟨"FAIL", "DATA_LOAD_ERROR", "Failed to load required data: " ++ e,
      [("error", CtxVal.S e)]⟩] }

def countSeverity (findings : List Finding) (sev : String) : ℤ :=
  ((findings.filter (fun f => f.severity == sev)).length : ℤ)

/-- `run_cabling_validation`.  The policy is loaded BEFORE the try-block,
so a policy-load failure other than a missing file propagates as an
exception (`error`); a manifest load failure inside the try-block yields
the single DATA_LOAD_ERROR report; otherwise the seven passes run (an
exception inside a pass, possible only in the lengths pass, also
propagates) and the summary counts WARN/FAIL/INFO findings plus the
estimated pass count. -/
def run_cabling_validation (policyFile : Option (LoadResult RawPolicy))
    (topologyLoad : LoadResult TopologyRec)
    (torsLoad : LoadResult (List TorRec × Option SpineRec))
    (nodesLoad : LoadResult (List NodeRec)) (siteLoad : LoadResult SiteRec) :
    Except String Report :=
  match load_policy policyFile with
  | Except.error e => Except.error e
  | Except.ok policy =>
    match loadManifests topologyLoad torsLoad nodesLoad siteLoad with
    | Except.error e => Except.ok (mkDataLoadErrorReport e)
    | Except.ok (topology, tors, nodes, site) =>
      match validate_lengths topology tors nodes site policy with
      | Except.error e => Except.error e
      | Except.ok lengthFindings =>
        let all_findings := validate_policy_sanity policy
          ++ validate_ports topology tors nodes policy
          ++ validate_compatibility topology tors nodes policy
          ++ validate_oversubscription topology tors nodes policy
          ++ validate_completeness topology tors nodes site policy
          ++ lengthFindings
          ++ validate_redundancy topology tors nodes policy
        let warn := countSeverity all_findings "WARN"
        let fail := countSeverity all_findings "FAIL"
        let info := countSeverity all_findings "INFO"
        let total_possible_checks := (topology.racks.length : ℤ) * 4 +
          (nodes.length : ℤ) * 2 + 10
        Except.ok
          { summary := [("pass", max 0 (total_possible_checks - warn - fail)),
              ("warn", warn), ("fail", fail), ("info", info)]
            findings := all_findings }

/-- A policy carrying the same optical rule (dac_max, bins, labels) for
both the 25G and the 100G media class, as read by
`select_cable_type_and_bin`. -/
def opticalPolicy (h : Heuristics) (dacMax : ℚ) (lab : MediaLabels)
    (rule_bins : List ℤ) : CablingPolicy :=
  { media_rules := [("sfp28_25g", ⟨some dacMax, rule_bins, some lab⟩),
                    ("qsfp28_100g", ⟨some dacMax, rule_bins, some lab⟩)]
    heuristics := some h }

/-- The condition under which the mismatch pass cannot re-select a consumed
intent bin: after exact matching, every (class, cable_type) group retains
at most one BOM bin. -/
def leftoverLenLE1 (bom intent : ClassMap) : Bool :=
  (initGroupPairs bom intent).all (fun g =>
    match exactPass g.2.2.1 g.2.2.2 with
    | some p => decide ((keysOf p.1).length ≤ 1)
    | Option.none => true)

/-! ### Supporting lemmas: Python max and sorted search -/

theorem foldl_max_bounds (xs : List ℤ) (x : ℤ) :
    x ≤ xs.foldl max x ∧ ∀ y ∈ xs, y ≤ xs.foldl max x := by
  induction xs generalizing x with
  | nil => simp
  | cons y ys ih =>
    obtain ⟨h1, h2⟩ := ih (max x y)
    refine ⟨le_trans (le_max_left x y) h1, ?_⟩
    intro z hz
    rcases List.mem_cons.mp hz with rfl | hz
    · exact le_trans (le_max_right x z) h1
    · exact h2 z hz

theorem foldl_max_mem (xs : List ℤ) (x : ℤ) :
    xs.foldl max x = x ∨ xs.foldl max x ∈ xs := by
  induction xs generalizing x with
  | nil => simp
  | cons y ys ih =>
    rcases ih (max x y) with h | h
    · rcases max_choice x y with hm | hm
      · left; simpa [hm] using h
      · right; simp only [List.foldl_cons]
        rw [h, hm]; exact List.mem_cons_self y ys
    · right; exact List.mem_cons_of_mem y h

theorem pyMax_spec {l : List ℤ} {M : ℤ} (h : pyMax l = some M) :
    M ∈ l ∧ ∀ x ∈ l, x ≤ M := by
  cases l with
  | nil => simp [pyMax] at h
  | cons x xs =>
    simp only [pyMax, Option.some.injEq] at h
    subst h
    constructor
    · rcases foldl_max_mem xs x with h | h
      · rw [h]; exact List.mem_cons_self x xs
      · exact List.mem_cons_of_mem x h
    · intro y hy
      rcases List.mem_cons.mp hy with rfl | hy
      · exact (foldl_max_bounds xs y).1
      · exact (foldl_max_bounds xs x).2 y hy

theorem pyMax_isSome {l : List ℤ} (h : l ≠ []) : ∃ M, pyMax l = some M := by
  cases l with
  | nil => exact absurd rfl h
  | cons x xs => exact ⟨xs.foldl max x, rfl⟩

/-- In a sorted list, the first element satisfying an upward-closed
predicate is minimal among the satisfying elements. -/
theorem find?_sorted_min {l : List ℤ} (hs : List.Sorted (· ≤ ·) l) {d : ℚ} {b : ℤ}
    (h : l.find? (fun c : ℤ => decide (d ≤ (c : ℚ))) = some b) :
    ∀ c ∈ l, d ≤ (c : ℚ) → b ≤ c := by
  induction l with
  | nil => simp at h
  | cons x xs ih =>
    by_cases hp : d ≤ (x : ℚ)
    · rw [List.find?_cons_of_pos _ (by simpa using hp)] at h
      obtain rfl : x = b := by simpa using h
      intro c hc _
      rcases List.mem_cons.mp hc with rfl | hc
      · exact le_refl c
      · exact (List.sorted_cons.mp hs).1 c hc
    · rw [List.find?_cons_of_neg _ (by simpa using hp)] at h
      intro c hc hdc
      rcases List.mem_cons.mp hc with rfl | hc
      · exact absurd hdc hp
      · exact ih (List.sorted_cons.mp hs).2 h c hc hdc

theorem argminAbs_mem {target : ℤ} {l : List ℤ} {r : ℤ}
    (h : argminAbs target l = some r) : r ∈ l := by
  cases l with
  | nil => simp [argminAbs] at h
  | cons x xs =>
    simp only [argminAbs, Option.some.injEq] at h
    subst h
    have : ∀ (ys : List ℤ) (a : ℤ), a ∈ x :: xs → (∀ y ∈ ys, y ∈ x :: xs) →
        ys.foldl (fun best y => if |y - target| < |best - target| then y else best) a ∈ x :: xs := by
      intro ys
      induction ys with
      | nil => intro a ha _; simpa using ha
      | cons y ys ih =>
        intro a ha hsub
        simp only [List.foldl_cons]
        refine ih _ ?_ (fun z hz => hsub z (List.mem_cons_of_mem y hz))
        by_cases hlt : |y - target| < |a - target|
        · simp only [if_pos hlt]; exact hsub y (List.mem_cons_self y ys)
        · simpa [if_neg hlt] using ha
    exact this xs x (List.mem_cons_self x xs) (fun z hz => List.mem_cons_of_mem x hz)

/-! ### C3 — selectBin correctness -/

/-- C3: for every distance and nonempty (not necessarily sorted) bin list,
`select_length_bin` returns the smallest bin at least the distance when
one exists, and returns `none` exactly when the distance exceeds the
largest bin; no other bin is substituted for an out-of-range distance. -/
theorem select_length_bin_spec (d : ℚ) (bins : List ℤ) (hne : bins ≠ []) :
    (∀ b, select_length_bin d bins = some b →
        b ∈ bins ∧ d ≤ (b : ℚ) ∧ ∀ c ∈ bins, d ≤ (c : ℚ) → b ≤ c)
    ∧ (∀ M, pyMax bins = some M →
        (select_length_bin d bins = Option.none ↔ (M : ℚ) < d)) := by
  have hsorted : List.Sorted (· ≤ ·) (List.insertionSort (· ≤ ·) bins) :=
    List.sorted_insertionSort (· ≤ ·) bins
  constructor
  · intro b hb
    unfold select_length_bin at hb
    refine ⟨(List.mem_insertionSort (· ≤ ·)).mp (List.mem_of_find?_eq_some hb), ?_, ?_⟩
    · have := List.find?_some hb
      simpa using this
    · intro c hc hdc
      exact find?_sorted_min hsorted hb c
        ((List.mem_insertionSort (· ≤ ·)).mpr hc) hdc
  · intro M hM
    obtain ⟨hMmem, hMub⟩ := pyMax_spec hM
    unfold select_length_bin
    rw [List.find?_eq_none]
    constructor
    · intro hall
      have := hall M ((List.mem_insertionSort (· ≤ ·)).mpr hMmem)
      simpa using this
    · intro hlt x hx
      have hxb : x ∈ bins := (List.mem_insertionSort (· ≤ ·)).mp hx
      have : (x : ℚ) ≤ (M : ℚ) := by exact_mod_cast hMub x hxb
      simp only [decide_eq_true_eq]
      exact not_le.mpr (lt_of_le_of_lt this hlt)

/-- Witness for C3: with bins `[10, 3, 5]` and distance 4, the selected bin
5 is a member, fits the distance, and is below the alternative 10; with
distance 11 (exceeding the maximum 10) the result is `none`. -/
theorem select_length_bin_spec_witness :
    (5 : ℤ) ∈ ([10, 3, 5] : List ℤ) ∧ (4 : ℚ) ≤ ((5 : ℤ) : ℚ) ∧ (5 : ℤ) ≤ 10
    ∧ select_length_bin 11 [10, 3, 5] = Option.none := by
  have h1 := (select_length_bin_spec 4 [10, 3, 5] (by decide)).1 5 (by decide)
  have h2 := (select_length_bin_spec 11 [10, 3, 5] (by decide)).2 10 (by decide)
  exact ⟨h1.1, h1.2.1, h1.2.2 10 (by decide) (by norm_num), h2.mpr (by norm_num)⟩

/-! ### C4 — spares rounding is a ceiling -/

/-- C4: `with_spares` is `ceil(count * (1 + spares_fraction))`: zero count
yields zero for every fraction in [0, 1], 9 at 10 percent yields 10 and
10 at 10 percent yields 11. -/
theorem with_spares_ceiling :
    (∀ f : ℚ, 0 ≤ f → f ≤ 1 → with_spares 0 f = 0)
    ∧ with_spares 9 (1 / 10) = 10 ∧ with_spares 10 (1 / 10) = 11 := by
  refine ⟨fun f _ _ => ?_, ?_, ?_⟩
  · simp [with_spares]
  · norm_num [with_spares, Int.ceil_eq_iff]
  · norm_num [with_spares]

/-- Witness for C4: the zero-count clause applied at fraction 1/10. -/
theorem with_spares_ceiling_witness : with_spares 0 (1 / 10) = 0 :=
  with_spares_ceiling.1 (1 / 10) (by norm_num) (by norm_num)

/-! ### C8 — DAC tier boundary is inclusive -/

/-- C8: for 25G and 100G links the tier comparison is inclusive: an
adjusted (slack-applied) distance exactly equal to `dac_max_m` selects the
DAC label; above `dac_max_m` but at most 10 selects the AOC label; above
10 selects the fiber label. -/
theorem select_cable_type_dac_boundary (d : ℚ) (h : Heuristics) (dacMax : ℚ)
    (lab : MediaLabels) (rule_bins bins : List ℤ) (lt : String)
    (hlt : lt = "25G" ∨ lt = "100G") (hbins : bins ≠ []) :
    (apply_slack d h.slack_factor = dacMax →
      (select_cable_type_and_bin d lt (opticalPolicy h dacMax lab rule_bins) bins).map Prod.fst
        = Except.ok lab.dac)
    ∧ (dacMax < apply_slack d h.slack_factor → apply_slack d h.slack_factor ≤ 10 →
      (select_cable_type_and_bin d lt (opticalPolicy h dacMax lab rule_bins) bins).map Prod.fst
        = Except.ok lab.aoc)
    ∧ (dacMax < apply_slack d h.slack_factor → 10 < apply_slack d h.slack_factor →
      (select_cable_type_and_bin d lt (opticalPolicy h dacMax lab rule_bins) bins).map Prod.fst
        = Except.ok lab.fiber) := by
  have hbin : ∃ sb, clampedBinE (apply_slack d h.slack_factor) bins = Except.ok sb := by
    unfold clampedBinE
    cases hsel : select_length_bin (apply_slack d h.slack_factor) bins with
    | none =>
      obtain ⟨M, hM⟩ := pyMax_isSome hbins
      exact ⟨M, by rw [hM]⟩
    | some b => exact ⟨b, rfl⟩
  obtain ⟨sb, hsb⟩ := hbin
  refine ⟨fun heq => ?_, fun hgt hle => ?_, fun hgtd hgt => ?_⟩
  · rcases hlt with rfl | rfl <;>
      simp only [select_cable_type_and_bin, opticalPolicy, hsb] <;>
      simp [opticalCableType, getVal, heq, Except.map]
  · rcases hlt with rfl | rfl <;>
      simp only [select_cable_type_and_bin, opticalPolicy, hsb] <;>
      simp [opticalCableType, getVal, not_le.mpr hgt, hle, Except.map]
  · rcases hlt with rfl | rfl <;>
      simp only [select_cable_type_and_bin, opticalPolicy, hsb] <;>
      simp [opticalCableType, getVal, not_le.mpr hgtd, not_le.mpr hgt, Except.map]

/-- Witness for C8: distance 3 with slack factor 1 lands exactly on a
`dac_max_m` of 3 and selects the DAC label. -/
theorem select_cable_type_dac_boundary_witness :
    (select_cable_type_and_bin 3 "25G"
      (opticalPolicy ⟨2, 10, 30, 1, 1⟩ 3
        ⟨some "SFP28 25G DAC", some "SFP28 25G AOC", some "SFP28 25G Fiber", Option.none⟩
        [1, 2, 3]) [5]).map Prod.fst = Except.ok (some "SFP28 25G DAC") :=
  (select_cable_type_dac_boundary 3 ⟨2, 10, 30, 1, 1⟩ 3
    ⟨some "SFP28 25G DAC", some "SFP28 25G AOC", some "SFP28 25G Fiber", Option.none⟩
    [1, 2, 3] [5] "25G" (Or.inl rfl) (by decide)).1 (by norm_num [apply_slack])

/-! ### C9 — out-of-range distances are clamped to the largest bin -/

theorem pyMax_ne_nil {l : List ℤ} {M : ℤ} (h : pyMax l = some M) : l ≠ [] := by
  cases l with
  | nil => simp [pyMax] at h
  | cons x xs => exact List.cons_ne_nil x xs

theorem select_length_bin_none_of_gt {d : ℚ} {bins : List ℤ} {M : ℤ}
    (hM : pyMax bins = some M) (hlt : (M : ℚ) < d) :
    select_length_bin d bins = Option.none :=
  ((select_length_bin_spec d bins (pyMax_ne_nil hM)).2 M hM).mpr hlt

/-- C9 (implicit): the BOM and intent derivation paths clamp out-of-range
distances instead of failing — when the distance exceeds the largest bin,
`_select_length_bin` of cross_validate.py returns the largest bin, and
`select_cable_type_and_bin` of common.py likewise returns the largest bin
(never a missing bin), both for the 25G/100G media classes and for the
synthesized unknown link type. -/
theorem out_of_range_distance_clamps :
    (∀ (d : ℚ) (bins : List ℤ) (M : ℤ), pyMax bins = some M → (M : ℚ) < d →
      cv_select_length_bin d bins = some M)
    ∧ (∀ (d : ℚ) (h : Heuristics) (dacMax : ℚ) (lab : MediaLabels) (rule_bins bins : List ℤ)
        (M : ℤ) (lt : String), lt = "25G" ∨ lt = "100G" → pyMax bins = some M →
        (M : ℚ) < apply_slack d h.slack_factor →
      (select_cable_type_and_bin d lt (opticalPolicy h dacMax lab rule_bins) bins).map Prod.snd
        = Except.ok M)
    ∧ (∀ (d : ℚ) (h : Heuristics) (media_rules : List (String × MediaRule)) (bins : List ℤ)
        (M : ℤ) (lt : String), lt ≠ "25G" → lt ≠ "100G" → lt ≠ "RJ45" →
        pyMax bins = some M → (M : ℚ) < apply_slack d h.slack_factor →
      select_cable_type_and_bin d lt ⟨media_rules, some h⟩ bins
        = Except.ok (some ("Unknown " ++ lt), M)) := by
  refine ⟨fun d bins M hM hlt => ?_, fun d h dacMax lab rule_bins bins M lt hlt hM hgt => ?_,
    fun d h media_rules bins M lt h1 h2 h3 hM hgt => ?_⟩
  · simp [cv_select_length_bin, select_length_bin_none_of_gt hM hlt, hM]
  · have hclamp : clampedBinE (apply_slack d h.slack_factor) bins = Except.ok M := by
      simp [clampedBinE, select_length_bin_none_of_gt hM hgt, hM]
    rcases hlt with rfl | rfl <;>
      by_cases h1 : apply_slack d h.slack_factor ≤ dacMax <;>
      by_cases h2 : apply_slack d h.slack_factor ≤ 10 <;>
      simp [select_cable_type_and_bin, opticalPolicy, hclamp, opticalCableType, getVal,
        h1, h2, Except.map]
  · have hclamp : clampedBinE (apply_slack d h.slack_factor) bins = Except.ok M := by
      simp [clampedBinE, select_length_bin_none_of_gt hM hgt, hM]
    simp [select_cable_type_and_bin, hclamp, h1, h2, h3]

/-- Witness for C9: distance 11 exceeds the largest bin 10 of
`[10, 3, 5]`; both helpers return the largest bin 10. -/
theorem out_of_range_distance_clamps_witness :
    cv_select_length_bin 11 [10, 3, 5] = some 10
    ∧ (select_cable_type_and_bin 11 "100G"
        (opticalPolicy ⟨2, 10, 30, 1, 1⟩ 3
          ⟨some "D", some "A", some "F", Option.none⟩ [1, 2, 3]) [10, 3, 5]).map Prod.snd
      = Except.ok 10 :=
  ⟨out_of_range_distance_clamps.1 11 [10, 3, 5] 10 (by decide) (by norm_num),
   out_of_range_distance_clamps.2.1 11 ⟨2, 10, 30, 1, 1⟩ 3
     ⟨some "D", some "A", some "F", Option.none⟩ [1, 2, 3] [10, 3, 5] 10 "100G"
     (Or.inr rfl) (by decide) (by norm_num [apply_slack])⟩

/-! ### Association-list lemmas for the reconciliation proofs -/

section DictLemmas

variable {κ ν : Type} [DecidableEq κ]

theorem getVal_isSome_of_mem {m : List (κ × ν)} {k : κ} (h : k ∈ keysOf m) :
    ∃ v, getVal m k = some v := by
  induction m with
  | nil => simp [keysOf] at h
  | cons e rest ih =>
    rcases e with ⟨k0, v0⟩
    by_cases hk : k0 = k
    · exact ⟨v0, by simp [getVal, hk]⟩
    · have h2 : k ∈ k0 :: keysOf rest := h
      have h3 : k ∈ keysOf rest := by
        rcases List.mem_cons.mp h2 with h1 | h1
        · exact absurd h1.symm hk
        · exact h1
      obtain ⟨v, hv⟩ := ih h3
      exact ⟨v, by simpa [getVal, hk] using hv⟩

theorem mem_of_getVal_some {m : List (κ × ν)} {k : κ} {v : ν}
    (h : getVal m k = some v) : (k, v) ∈ m := by
  induction m with
  | nil => simp [getVal] at h
  | cons e rest ih =>
    rcases e with ⟨k0, v0⟩
    by_cases hk : k0 = k
    · subst hk
      have hv : v0 = v := by simpa [getVal] using h
      subst hv
      exact List.mem_cons_self _ _
    · have h2 : getVal rest k = some v := by simpa [getVal, hk] using h
      exact List.mem_cons_of_mem _ (ih h2)

theorem getVal_setVal_ne {m : List (κ × ν)} {k k' : κ} (v : ν) (h : k' ≠ k) :
    getVal (setVal m k v) k' = getVal m k' := by
  induction m with
  | nil => simp [setVal, getVal, Ne.symm h]
  | cons e rest ih =>
    rcases e with ⟨k0, v0⟩
    by_cases hk : k0 = k
    · subst hk
      simp [setVal, getVal, Ne.symm h, h]
    · by_cases hk' : k0 = k'
      · simp [setVal, getVal, hk, hk', h]
      · simp [setVal, getVal, hk, hk', ih]

theorem getVal_delKey_ne {m : List (κ × ν)} {k k' : κ} (h : k' ≠ k) :
    getVal (delKey m k) k' = getVal m k' := by
  induction m with
  | nil => simp [delKey]
  | cons e rest ih =>
    rcases e with ⟨k0, v0⟩
    by_cases hk : k0 = k
    · subst hk
      simp [delKey, getVal, Ne.symm h]
    · simp [delKey, getVal, hk, ih]

theorem keysOf_eq_nil {m : List (κ × ν)} (h : keysOf m = []) : m = [] := by
  cases m with
  | nil => rfl
  | cons e rest => simp [keysOf] at h

end DictLemmas

/-! ### C1 — equal multisets reconcile to no findings -/

section DictLemmasTwo

variable {κ ν : Type} [DecidableEq κ]

theorem getVal_setVal_self (m : List (κ × ν)) (k : κ) (v : ν) :
    getVal (setVal m k v) k = some v := by
  induction m with
  | nil => simp [setVal, getVal]
  | cons e rest ih =>
    rcases e with ⟨k0, v0⟩
    by_cases hk : k0 = k
    · simp [setVal, getVal, hk]
    · simp [setVal, getVal, hk, ih]

theorem mem_keysOf_of_getVal_some {m : List (κ × ν)} {k : κ} {v : ν}
    (h : getVal m k = some v) : k ∈ keysOf m :=
  List.mem_map_of_mem Prod.fst (mem_of_getVal_some h)

theorem getVal_eq_none_of_not_mem {m : List (κ × ν)} {k : κ} (h : k ∉ keysOf m) :
    getVal m k = Option.none := by
  cases hg : getVal m k with
  | none => rfl
  | some v => exact absurd (mem_keysOf_of_getVal_some hg) h

theorem mem_keysOf_setVal {m : List (κ × ν)} {k a : κ} (v : ν) :
    a ∈ keysOf (setVal m k v) ↔ a ∈ keysOf m ∨ a = k := by
  induction m with
  | nil => simp [setVal, keysOf]
  | cons e rest ih =>
    rcases e with ⟨k0, v0⟩
    by_cases hk : k0 = k
    · subst hk
      have hs : setVal ((k0, v0) :: rest) k0 v = (k0, v) :: rest := by simp [setVal]
      rw [hs]
      simp only [keysOf, List.map_cons, List.mem_cons]
      tauto
    · have hs : setVal ((k0, v0) :: rest) k v = (k0, v0) :: setVal rest k v := by
        simp [setVal, hk]
      rw [hs]
      simp only [keysOf, List.map_cons, List.mem_cons] at ih ⊢
      rw [ih]
      tauto

theorem nodup_keysOf_setVal {m : List (κ × ν)} (k : κ) (v : ν)
    (h : (keysOf m).Nodup) : (keysOf (setVal m k v)).Nodup := by
  induction m with
  | nil => simp [setVal, keysOf]
  | cons e rest ih =>
    rcases e with ⟨k0, v0⟩
    have hcons : (k0 :: keysOf rest).Nodup := h
    obtain ⟨h1, h2⟩ := List.nodup_cons.mp hcons
    by_cases hk : k0 = k
    · subst hk
      have hs : setVal ((k0, v0) :: rest) k0 v = (k0, v) :: rest := by simp [setVal]
      rw [hs]
      exact hcons
    · have hs : setVal ((k0, v0) :: rest) k v = (k0, v0) :: setVal rest k v := by
        simp [setVal, hk]
      rw [hs]
      show (k0 :: keysOf (setVal rest k v)).Nodup
      refine List.nodup_cons.mpr ⟨?_, ih h2⟩
      intro hmem
      rcases (mem_keysOf_setVal v).mp hmem with h3 | h3
      · exact h1 h3
      · exact hk h3

theorem keysOf_delKey_sublist (m : List (κ × ν)) (k : κ) :
    List.Sublist (keysOf (delKey m k)) (keysOf m) := by
  induction m with
  | nil => simp [delKey]
  | cons e rest ih =>
    rcases e with ⟨k0, v0⟩
    by_cases hk : k0 = k
    · simp only [delKey, if_pos hk, keysOf, List.map_cons]
      exact List.Sublist.cons k0 (List.Sublist.refl _)
    · simp only [delKey, if_neg hk, keysOf, List.map_cons]
      exact List.Sublist.cons₂ k0 ih

theorem nodup_keysOf_delKey {m : List (κ × ν)} (k : κ)
    (h : (keysOf m).Nodup) : (keysOf (delKey m k)).Nodup :=
  List.Nodup.sublist (keysOf_delKey_sublist m k) h

theorem getVal_delKey_self {m : List (κ × ν)} (k : κ) (h : (keysOf m).Nodup) :
    getVal (delKey m k) k = Option.none := by
  induction m with
  | nil => simp [delKey, getVal]
  | cons e rest ih =>
    rcases e with ⟨k0, v0⟩
    have hcons : (k0 :: keysOf rest).Nodup := h
    obtain ⟨h1, h2⟩ := List.nodup_cons.mp hcons
    by_cases hk : k0 = k
    · subst hk
      simp only [delKey, if_pos rfl]
      exact getVal_eq_none_of_not_mem h1
    · simp only [delKey, if_neg hk, getVal, if_neg hk]
      exact ih h2

theorem eq_nil_of_getVal_none {m : List (κ × ν)} (h : ∀ k, getVal m k = Option.none) :
    m = [] := by
  cases m with
  | nil => rfl
  | cons e rest =>
    rcases e with ⟨k0, v0⟩
    have := h k0
    simp [getVal] at this

end DictLemmasTwo

/-- The exact-match step fully consumes a bin whose two counts agree: the
head entry of the BOM side is deleted and the matching intent entry is
zeroed and deleted. -/
theorem exactStep_consume_all (ib0 : List ℤ) (k v : ℤ) (rest : BinMap) (i : BinMap)
    (hk : k ∈ ib0) (hik : getVal i k = some v) :
    exactStep ib0 ((k, v) :: rest, i) k = some (rest, delKey (setVal i k 0) k) := by
  simp [exactStep, hk, hik, getVal, setVal, delKey, getVal_setVal_self, min_self, sub_self]

/-- The exact-match fold empties both sides whenever the two bin maps hold
the same counts at every bin (in any key order). -/
theorem exactPass_pointwise_aux (ib0 : List ℤ) : ∀ (ks : List ℤ) (b i : BinMap),
    keysOf b = ks → ks.Nodup → (keysOf i).Nodup →
    (∀ k, getVal b k = getVal i k) → (∀ k ∈ ks, k ∈ ib0) →
    ks.foldlM (exactStep ib0) (b, i) = some ([], []) := by
  intro ks
  induction ks with
  | nil =>
    intro b i hkeys _ _ hpt _
    have hb : b = [] := keysOf_eq_nil hkeys
    subst hb
    have hi : i = [] := eq_nil_of_getVal_none (fun k => (hpt k).symm)
    subst hi
    rfl
  | cons k ks' ih =>
    intro b i hkeys hnodup hinodup hpt hsub
    cases b with
    | nil => simp [keysOf] at hkeys
    | cons e rest =>
      rcases e with ⟨k0, v⟩
      have hk0 : k0 = k := by simpa [keysOf] using congrArg (fun l => l.headD k0) hkeys
      subst hk0
      have hrest : keysOf rest = ks' := by simpa [keysOf] using hkeys
      obtain ⟨hknotin, hnodup2⟩ := List.nodup_cons.mp hnodup
      have hik : getVal i k0 = some v := by
        rw [← hpt k0]
        simp [getVal]
      have hptNew : ∀ k2, getVal rest k2 = getVal (delKey (setVal i k0 0) k0) k2 := by
        intro k2
        by_cases hkk : k2 = k0
        · subst hkk
          rw [getVal_eq_none_of_not_mem (by rw [hrest]; exact hknotin),
            getVal_delKey_self k2 (nodup_keysOf_setVal k2 0 hinodup)]
        · have h1 : getVal ((k0, v) :: rest) k2 = getVal rest k2 := by
            simp [getVal, Ne.symm hkk]
          rw [getVal_delKey_ne hkk, getVal_setVal_ne 0 hkk, ← hpt k2, h1]
      rw [List.foldlM_cons,
        exactStep_consume_all ib0 k0 v rest i (hsub k0 (List.mem_cons_self _ _)) hik]
      exact ih rest (delKey (setVal i k0 0) k0) hrest hnodup2
        (nodup_keysOf_delKey k0 (nodup_keysOf_setVal k0 0 hinodup)) hptNew
        (fun x hx => hsub x (List.mem_cons_of_mem _ hx))

theorem exactPass_pointwise (b i : BinMap) (hb : WFBinMap b) (hi : WFBinMap i)
    (hpt : ∀ k, getVal b k = getVal i k) : exactPass b i = some ([], []) :=
  exactPass_pointwise_aux (keysOf i) (keysOf b) b i rfl hb hi hpt
    (fun k hk => by
      obtain ⟨v, hv⟩ := getVal_isSome_of_mem hk
      refine mem_keysOf_of_getVal_some (v := v) ?_
      rw [← hpt k]
      exact hv)

theorem reconcileGroup_pointwise (slop : ℚ) (class_name cable_type : String)
    (b i : BinMap) (hb : WFBinMap b) (hi : WFBinMap i)
    (hpt : ∀ k, getVal b k = getVal i k) :
    reconcileGroup slop class_name cable_type b i = some ([], [], []) := by
  unfold reconcileGroup
  rw [exactPass_pointwise b i hb hi hpt]
  rfl

theorem WFBinMap_of_WFClassMap {s : ClassMap} (h : WFClassMap s) (c t : String) :
    WFBinMap (getValD (getValD s c []) t []) := by
  rcases hc : getVal s c with _ | ts
  · simp [getValD, hc, getVal, WFBinMap, keysOf]
  · have hts : WFTypeMap ts := h.2 (c, ts) (mem_of_getVal_some hc)
    rcases ht : getVal ts t with _ | bm
    · simp [getValD, hc, ht, WFBinMap, keysOf]
    · have : WFBinMap bm := hts.2 (t, bm) (mem_of_getVal_some ht)
      simpa [getValD, hc, ht] using this

/-- Every group produced by the initialisation carries exactly the two
copied `class -> cable_type` slices of the inputs. -/
theorem initGroupPairs_shape (bom intent : ClassMap) :
    ∀ g ∈ initGroupPairs bom intent,
      g.2.2.1 = getValD (getValD bom g.1 []) g.2.1 [] ∧
      g.2.2.2 = getValD (getValD intent g.1 []) g.2.1 [] := by
  intro g hg
  simp only [initGroupPairs, List.mem_flatMap, List.mem_map] at hg
  obtain ⟨c, _, t, _, rfl⟩ := hg
  exact ⟨rfl, rfl⟩

theorem mapM_option_congr {α β : Type} (f : α → Option β) (out : α → β) :
    ∀ (l : List α), (∀ a ∈ l, f a = some (out a)) → l.mapM f = some (l.map out) := by
  intro l
  induction l with
  | nil => intro _; rfl
  | cons a rest ih =>
    intro hall
    rw [List.mapM_cons, hall a (List.mem_cons_self _ _),
      ih (fun x hx => hall x (List.mem_cons_of_mem _ hx))]
    rfl

theorem flatMap_nil_of {α β : Type} (f : α → List β) :
    ∀ (l : List α), (∀ a ∈ l, f a = []) → l.flatMap f = [] := by
  intro l
  induction l with
  | nil => intro _; rfl
  | cons a rest ih =>
    intro hall
    simp only [List.flatMap_cons, hall a (List.mem_cons_self _ _), List.nil_append]
    exact ih (fun x hx => hall x (List.mem_cons_of_mem _ hx))

theorem lookupCount_some_elim {s : ClassMap} {c t : String} {bin v : ℤ}
    (h : lookupCount s c t bin = some v) :
    ∃ ts bm, getVal s c = some ts ∧ getVal ts t = some bm ∧ getVal bm bin = some v := by
  unfold lookupCount at h
  cases hc : getVal s c with
  | none =>
    have e1 : getValD s c ([] : TypeMap) = [] := by simp [getValD, hc]
    rw [e1] at h
    simp [getValD, getVal] at h
  | some ts =>
    have e1 : getValD s c ([] : TypeMap) = ts := by simp [getValD, hc]
    rw [e1] at h
    cases ht : getVal ts t with
    | none =>
      have e2 : getValD ts t ([] : BinMap) = [] := by simp [getValD, ht]
      rw [e2] at h
      simp [getVal] at h
    | some bm =>
      have e2 : getValD ts t ([] : BinMap) = bm := by simp [getValD, ht]
      rw [e2] at h
      exact ⟨ts, bm, rfl, ht, h⟩

theorem countsSubset_lookup {a b : ClassMap} (h : countsSubset a b = true)
    {c t : String} {bin v : ℤ} {ts : TypeMap} {bm : BinMap}
    (hc : (c, ts) ∈ a) (ht : (t, bm) ∈ ts) (hb : (bin, v) ∈ bm) :
    lookupCount b c t bin = some v := by
  have h1 := List.all_eq_true.mp h (c, ts) hc
  have h2 := List.all_eq_true.mp h1 (t, bm) ht
  have h3 := List.all_eq_true.mp h2 (bin, v) hb
  exact of_decide_eq_true h3

/-- `sameCounts` is pointwise equality of the count lookups. -/
theorem lookupCount_ext {a b : ClassMap} (hs : sameCounts a b = true)
    (c t : String) (bin : ℤ) : lookupCount a c t bin = lookupCount b c t bin := by
  obtain ⟨h1, h2⟩ := Bool.and_eq_true_iff.mp hs
  cases ha : lookupCount a c t bin with
  | some v =>
    obtain ⟨ts, bm, hc, ht, hbm⟩ := lookupCount_some_elim ha
    exact (countsSubset_lookup h1 (mem_of_getVal_some hc) (mem_of_getVal_some ht)
      (mem_of_getVal_some hbm)).symm
  | none =>
    cases hb : lookupCount b c t bin with
    | none => rfl
    | some w =>
      obtain ⟨ts, bm, hc, ht, hbm⟩ := lookupCount_some_elim hb
      have h3 := countsSubset_lookup h2 (mem_of_getVal_some hc) (mem_of_getVal_some ht)
        (mem_of_getVal_some hbm)
      rw [ha] at h3
      exact Option.noConfusion h3

/-- C1: reconciliation round-trip identity.  Whenever the normalized BOM
structure and the freshly derived intent structure hold the same multiset
— equal counts at every (class, cable_type, length_bin) key, regardless of
the dict insertion order of either side (the exported BOM is key-sorted
while intent follows derivation order) — `_reconcile_bom_vs_intent`
returns an empty findings list: no MISSING_LINK, PHANTOM_ITEM or
BIN_MISMATCH findings. -/
theorem reconcile_equal_multisets_empty (bom intent : ClassMap) (policy : CrossPolicy)
    (hwfB : WFClassMap bom) (hwfI : WFClassMap intent)
    (hsame : sameCounts bom intent = true) :
    reconcile_bom_vs_intent bom intent policy = some [] := by
  have hmap : reconcileResults bom intent (binSlopOf policy) =
      some ((initGroupPairs bom intent).map (fun g => (g.1, g.2.1, ([], [], [])))) := by
    apply mapM_option_congr
    intro g hg
    obtain ⟨hgb, hgi⟩ := initGroupPairs_shape bom intent g hg
    show (reconcileGroup (binSlopOf policy) g.1 g.2.1 g.2.2.1 g.2.2.2).map
        (fun r => (g.1, g.2.1, r)) = some (g.1, g.2.1, ([], [], []))
    rw [reconcileGroup_pointwise (binSlopOf policy) g.1 g.2.1 g.2.2.1 g.2.2.2
      (by rw [hgb]; exact WFBinMap_of_WFClassMap hwfB g.1 g.2.1)
      (by rw [hgi]; exact WFBinMap_of_WFClassMap hwfI g.1 g.2.1)
      (by intro k; rw [hgb, hgi]; exact lookupCount_ext hsame g.1 g.2.1 k)]
    rfl
  unfold reconcile_bom_vs_intent
  rw [hmap]
  dsimp only
  rw [flatMap_nil_of (fun (r : String × String × (List CrossFinding × BinMap × BinMap)) =>
        r.2.2.1) _
      (by intro a ha; simp only [List.mem_map] at ha; obtain ⟨g, _, rfl⟩ := ha; rfl),
    flatMap_nil_of (fun (r : String × String × (List CrossFinding × BinMap × BinMap)) =>
        r.2.2.2.2.filterMap (fun e =>
          if e.2 > 0 then some (mkMissingFinding r.1 r.2.1 e.1 e.2) else Option.none)) _
      (by intro a ha; simp only [List.mem_map] at ha; obtain ⟨g, _, rfl⟩ := ha; rfl),
    flatMap_nil_of (fun (r : String × String × (List CrossFinding × BinMap × BinMap)) =>
        r.2.2.2.1.filterMap (fun e =>
          if e.2 > 0 then some (mkPhantomFinding r.1 r.2.1 e.1 e.2) else Option.none)) _
      (by intro a ha; simp only [List.mem_map] at ha; obtain ⟨g, _, rfl⟩ := ha; rfl)]
  rfl

/-- Witness for C1: the same multiset in different dict insertion orders —
the BOM key-sorted at every level, the intent in derivation order —
reconciles to no findings. -/
theorem reconcile_equal_multisets_empty_witness :
    reconcile_bom_vs_intent
      [("leaf-node", [("sfp28_25g", [(2, 4), (3, 1)])]), ("mgmt", [("rj45_cat6a", [(3, 7)])])]
      [("mgmt", [("rj45_cat6a", [(3, 7)])]), ("leaf-node", [("sfp28_25g", [(3, 1), (2, 4)])])]
      ⟨some ⟨some 2⟩⟩ = some [] :=
  reconcile_equal_multisets_empty
    [("leaf-node", [("sfp28_25g", [(2, 4), (3, 1)])]), ("mgmt", [("rj45_cat6a", [(3, 7)])])]
    [("mgmt", [("rj45_cat6a", [(3, 7)])]), ("leaf-node", [("sfp28_25g", [(3, 1), (2, 4)])])]
    ⟨some ⟨some 2⟩⟩ (by decide) (by decide) (by decide)

/-! ### C2 — bin-mismatch classification -/

/-- A leftover BOM bin whose closest intent bin holds an equal quantity is
consumed by the mismatch pass, emitting exactly one finding classified by
`mismatchClassify`. -/
theorem mismatchStep_consume (class_name cable_type : String) (slop : ℚ) (ib0 : List ℤ)
    (fs : List CrossFinding) (b i : BinMap) (bom_bin closest q : ℤ)
    (h1 : argminAbs bom_bin ib0 = some closest)
    (h2 : getVal b bom_bin = some q) (h3 : getVal i closest = some q) :
    mismatchStep class_name cable_type slop ib0 (fs, b, i) bom_bin =
      some (fs ++ [mkMismatchFinding class_name cable_type bom_bin closest slop],
        delKey b bom_bin, delKey i closest) := by
  simp [mismatchStep, h1, h2, h3]

theorem reconcile_singleton_mismatch (bom_bin intent_bin n : ℤ) (policy : CrossPolicy)
    (hne : bom_bin ≠ intent_bin) :
    reconcile_bom_vs_intent [("leaf-node", [("sfp28_25g", [(bom_bin, n)])])]
      [("leaf-node", [("sfp28_25g", [(intent_bin, n)])])] policy =
      some [mkMismatchFinding "leaf-node" "sfp28_25g" bom_bin intent_bin (binSlopOf policy)] := by
  have hinit : initGroupPairs [("leaf-node", [("sfp28_25g", [(bom_bin, n)])])]
      [("leaf-node", [("sfp28_25g", [(intent_bin, n)])])] =
      [("leaf-node", "sfp28_25g", [(bom_bin, n)], [(intent_bin, n)])] := rfl
  have hexact : exactPass [(bom_bin, n)] [(intent_bin, n)] =
      some ([(bom_bin, n)], [(intent_bin, n)]) := by
    simp [exactPass, exactStep, keysOf, List.foldlM, hne]
  have hstep := mismatchStep_consume "leaf-node" "sfp28_25g" (binSlopOf policy) [intent_bin]
    [] [(bom_bin, n)] [(intent_bin, n)] bom_bin intent_bin n rfl
    (by simp [getVal]) (by simp [getVal])
  have hmm : mismatchPass "leaf-node" "sfp28_25g" (binSlopOf policy)
      [(bom_bin, n)] [(intent_bin, n)] =
      some ([mkMismatchFinding "leaf-node" "sfp28_25g" bom_bin intent_bin (binSlopOf policy)],
        [], []) := by
    simp only [mismatchPass, keysOf, List.map_cons, List.map_nil, List.foldlM_cons,
      List.foldlM_nil, hstep]
    simp [delKey]
  have hgroup : reconcileGroup (binSlopOf policy) "leaf-node" "sfp28_25g"
      [(bom_bin, n)] [(intent_bin, n)] =
      some ([mkMismatchFinding "leaf-node" "sfp28_25g" bom_bin intent_bin (binSlopOf policy)],
        [], []) := by
    simp [reconcileGroup, hexact, hmm]
  have hres : reconcileResults [("leaf-node", [("sfp28_25g", [(bom_bin, n)])])]
      [("leaf-node", [("sfp28_25g", [(intent_bin, n)])])] (binSlopOf policy) =
      some [("leaf-node", "sfp28_25g",
        ([mkMismatchFinding "leaf-node" "sfp28_25g" bom_bin intent_bin (binSlopOf policy)],
          ([] : BinMap), ([] : BinMap)))] := by
    unfold reconcileResults
    rw [hinit]
    exact mapM_option_congr _ (fun _ => ("leaf-node", "sfp28_25g",
        ([mkMismatchFinding "leaf-node" "sfp28_25g" bom_bin intent_bin (binSlopOf policy)],
          ([] : BinMap), ([] : BinMap)))) _
      (by intro a ha
          rw [List.mem_singleton] at ha
          subst ha
          show (reconcileGroup (binSlopOf policy) "leaf-node" "sfp28_25g"
              [(bom_bin, n)] [(intent_bin, n)]).map _ = _
          rw [hgroup]
          rfl)
  unfold reconcile_bom_vs_intent
  rw [hres]
  dsimp only
  simp

/-- C2: in a (class, cable_type) group, a leftover BOM bin whose closest
remaining intent bin (by absolute difference) carries an equal quantity is
consumed and classified WARN `BIN_MISMATCH_WARN` when the BOM bin is at
least the intent bin and the gap is within `bin_slop_m`, else FAIL
`BIN_MISMATCH_FAIL`: stated for the general mismatch-pass step, for the
classification rule itself, and end to end for a group with one BOM bin
and one differing intent bin of equal quantity. -/
theorem bin_mismatch_classification :
    (∀ (class_name cable_type : String) (slop : ℚ) (ib0 : List ℤ) (fs : List CrossFinding)
        (b i : BinMap) (bom_bin closest q : ℤ),
      argminAbs bom_bin ib0 = some closest →
      getVal b bom_bin = some q → getVal i closest = some q →
      mismatchStep class_name cable_type slop ib0 (fs, b, i) bom_bin =
        some (fs ++ [mkMismatchFinding class_name cable_type bom_bin closest slop],
          delKey b bom_bin, delKey i closest))
    ∧ (∀ (bom_bin intent_bin : ℤ) (slop : ℚ),
      (bom_bin ≥ intent_bin ∧ ((bom_bin - intent_bin : ℤ) : ℚ) ≤ slop →
        mismatchClassify bom_bin intent_bin slop = ("WARN", "BIN_MISMATCH_WARN"))
      ∧ (¬(bom_bin ≥ intent_bin ∧ ((bom_bin - intent_bin : ℤ) : ℚ) ≤ slop) →
        mismatchClassify bom_bin intent_bin slop = ("FAIL", "BIN_MISMATCH_FAIL")))
    ∧ (∀ (bom_bin intent_bin n : ℤ) (policy : CrossPolicy), bom_bin ≠ intent_bin →
      reconcile_bom_vs_intent [("leaf-node", [("sfp28_25g", [(bom_bin, n)])])]
        [("leaf-node", [("sfp28_25g", [(intent_bin, n)])])] policy =
        some [mkMismatchFinding "leaf-node" "sfp28_25g" bom_bin intent_bin
          (binSlopOf policy)]) :=
  ⟨mismatchStep_consume,
   fun bom_bin intent_bin slop =>
     ⟨fun h => by simp only [mismatchClassify]; rw [if_pos h],
      fun h => by simp only [mismatchClassify]; rw [if_neg h]⟩,
   reconcile_singleton_mismatch⟩

/-- Witness for C2: with the default `bin_slop_m` of 2.0, a BOM bin 2m
larger than the intent bin (5 vs 3, equal quantity) yields
`BIN_MISMATCH_WARN`, and one 2m smaller (3 vs 5) yields
`BIN_MISMATCH_FAIL`. -/
theorem bin_mismatch_classification_witness :
    reconcile_bom_vs_intent [("leaf-node", [("sfp28_25g", [(5, 1)])])]
      [("leaf-node", [("sfp28_25g", [(3, 1)])])] ⟨Option.none⟩ =
      some [{ severity := "WARN"
              code := "BIN_MISMATCH_WARN"
              message := "leaf-node sfp28_25g: BOM uses 5m bin, intent expects 3m"
              context := [("class", CtxVal.S "leaf-node"), ("cable_type", CtxVal.S "sfp28_25g"),
                ("bom_bin_m", CtxVal.I 5), ("intent_bin_m", CtxVal.I 3),
                ("bin_slop_m", CtxVal.Q 2)] }]
    ∧ reconcile_bom_vs_intent [("leaf-node", [("sfp28_25g", [(3, 1)])])]
      [("leaf-node", [("sfp28_25g", [(5, 1)])])] ⟨Option.none⟩ =
      some [{ severity := "FAIL"
              code := "BIN_MISMATCH_FAIL"
              message := "leaf-node sfp28_25g: BOM uses 3m bin, intent expects 5m"
              context := [("class", CtxVal.S "leaf-node"), ("cable_type", CtxVal.S "sfp28_25g"),
                ("bom_bin_m", CtxVal.I 3), ("intent_bin_m", CtxVal.I 5),
                ("bin_slop_m", CtxVal.Q 2)] }] := by
  constructor
  · rw [bin_mismatch_classification.2.2 5 3 1 ⟨Option.none⟩ (by decide)]
    decide
  · rw [bin_mismatch_classification.2.2 3 5 1 ⟨Option.none⟩ (by decide)]
    decide

/-! ### C10 — (non-)totality of the reconciliation function -/

/-- Counterexample to C10: with BOM bins {5: 1, 6: 1} and intent bins
{3: 1} in one group, the first leftover BOM bin (5) consumes intent bin 3,
but `remaining_intent_bins` is not updated, so the second leftover BOM bin
(6) re-selects the already-deleted intent bin 3 and the lookup raises
`KeyError` (modelled as `none`): the function is not total. -/
theorem reconcile_keyerror_counterexample :
    reconcile_bom_vs_intent [("leaf-node", [("sfp28_25g", [(5, 1), (6, 1)])])]
      [("leaf-node", [("sfp28_25g", [(3, 1)])])] ⟨Option.none⟩ = Option.none := by
  decide

theorem getVal_stepped_ne {b : BinMap} {k k' : ℤ} (v : ℤ) (h : k' ≠ k) :
    getVal (if getVal (setVal b k v) k = some 0 then delKey (setVal b k v) k
      else setVal b k v) k' = getVal b k' := by
  by_cases h0 : getVal (setVal b k v) k = some 0 <;>
    simp [h0, getVal_delKey_ne h, getVal_setVal_ne v h]

theorem exactPass_fold_isSome (ib0 : List ℤ) :
    ∀ (ks : List ℤ) (b i : BinMap), ks.Nodup →
    (∀ k ∈ ks, (getVal b k).isSome) →
    (∀ k ∈ ks, k ∈ ib0 → (getVal i k).isSome) →
    ∃ p, ks.foldlM (exactStep ib0) (b, i) = some p := by
  intro ks
  induction ks with
  | nil => exact fun b i _ _ _ => ⟨(b, i), rfl⟩
  | cons k ks' ih =>
    intro b i hnodup hb hi
    obtain ⟨hknotin, hnodup'⟩ := List.nodup_cons.mp hnodup
    by_cases hk : k ∈ ib0
    · obtain ⟨bc, hbc⟩ := Option.isSome_iff_exists.mp (hb k (List.mem_cons_self _ _))
      obtain ⟨ic, hic⟩ := Option.isSome_iff_exists.mp (hi k (List.mem_cons_self _ _) hk)
      have hstep : exactStep ib0 (b, i) k = some
          (if getVal (setVal b k (bc - min bc ic)) k = some 0 then
            delKey (setVal b k (bc - min bc ic)) k else setVal b k (bc - min bc ic),
          if getVal (setVal i k (ic - min bc ic)) k = some 0 then
            delKey (setVal i k (ic - min bc ic)) k else setVal i k (ic - min bc ic)) := by
        simp [exactStep, hk, hbc, hic]
      rw [List.foldlM_cons, hstep]
      apply ih _ _ hnodup'
      · intro k' hk'
        have hne : k' ≠ k := fun he => hknotin (by rwa [he] at hk')
        rw [getVal_stepped_ne _ hne]
        exact hb k' (List.mem_cons_of_mem _ hk')
      · intro k' hk' hk'0
        have hne : k' ≠ k := fun he => hknotin (by rwa [he] at hk')
        rw [getVal_stepped_ne _ hne]
        exact hi k' (List.mem_cons_of_mem _ hk') hk'0
    · have hstep : exactStep ib0 (b, i) k = some (b, i) := by simp [exactStep, hk]
      rw [List.foldlM_cons, hstep]
      exact ih b i hnodup' (fun k' hk' => hb k' (List.mem_cons_of_mem _ hk'))
        (fun k' hk' h0 => hi k' (List.mem_cons_of_mem _ hk') h0)

theorem exactPass_isSome (b i : BinMap) (hwf : WFBinMap b) :
    ∃ p, exactPass b i = some p :=
  exactPass_fold_isSome (keysOf i) (keysOf b) b i hwf
    (fun k hk => (getVal_isSome_of_mem hk).elim (fun v hv => by simp [hv]))
    (fun k _ hk0 => (getVal_isSome_of_mem hk0).elim (fun v hv => by simp [hv]))

theorem mismatchPass_isSome_small (class_name cable_type : String) (slop : ℚ)
    (b i : BinMap) (hlen : (keysOf b).length ≤ 1) :
    ∃ r, mismatchPass class_name cable_type slop b i = some r := by
  cases b with
  | nil => exact ⟨([], [], i), rfl⟩
  | cons e rest =>
    have hrest : rest = [] := by
      simp only [keysOf, List.map_cons, List.length_cons, List.length_map] at hlen
      exact List.eq_nil_of_length_eq_zero (by omega)
    subst hrest
    rcases e with ⟨k, v⟩
    show ∃ r, [k].foldlM (mismatchStep class_name cable_type slop (keysOf i))
      ([], [(k, v)], i) = some r
    cases harg : argminAbs k (keysOf i) with
    | none =>
      refine ⟨([], [(k, v)], i), ?_⟩
      simp [List.foldlM, mismatchStep, harg]
    | some closest =>
      obtain ⟨ic, hic⟩ := getVal_isSome_of_mem (argminAbs_mem harg)
      by_cases hq : v = ic
      · subst hq
        refine ⟨([mkMismatchFinding class_name cable_type k closest slop],
          delKey [(k, v)] k, delKey i closest), ?_⟩
        simp [List.foldlM, mismatchStep, harg, getVal, hic]
      · refine ⟨([], [(k, v)], i), ?_⟩
        simp [List.foldlM, mismatchStep, harg, getVal, hic, hq]

theorem initGroupPairs_bom_wf {bom intent : ClassMap} (h : WFClassMap bom) :
    ∀ g ∈ initGroupPairs bom intent, WFBinMap g.2.2.1 := by
  intro g hg
  simp only [initGroupPairs, List.mem_flatMap, List.mem_map] at hg
  obtain ⟨c, _, t, _, rfl⟩ := hg
  exact WFBinMap_of_WFClassMap h c t

theorem mapM_option_isSome {α β : Type} (f : α → Option β) :
    ∀ (l : List α), (∀ a ∈ l, (f a).isSome) → ∃ out, l.mapM f = some out := by
  intro l
  induction l with
  | nil => exact fun _ => ⟨[], rfl⟩
  | cons a rest ih =>
    intro hall
    obtain ⟨b, hb⟩ := Option.isSome_iff_exists.mp (hall a (List.mem_cons_self _ _))
    obtain ⟨out, hout⟩ := ih (fun x hx => hall x (List.mem_cons_of_mem _ hx))
    exact ⟨b :: out, by rw [List.mapM_cons, hb, hout]; rfl⟩

/-- C10 amended: the reconciliation function returns a findings list
without raising provided that, in every (class, cable_type) group, at most
one BOM bin is left over after the exact-match pass (so the mismatch pass
never re-selects an intent bin it already consumed).  The unconditional
claim is refuted by `reconcile_keyerror_counterexample`. -/
theorem reconcile_total_of_small_leftover (bom intent : ClassMap) (policy : CrossPolicy)
    (hwf : WFClassMap bom) (hsmall : leftoverLenLE1 bom intent = true) :
    (reconcile_bom_vs_intent bom intent policy).isSome = true := by
  have hall := List.all_eq_true.mp hsmall
  have hgroup : ∀ g ∈ initGroupPairs bom intent,
      ((reconcileGroup (binSlopOf policy) g.1 g.2.1 g.2.2.1 g.2.2.2).map
        (fun r => (g.1, g.2.1, r))).isSome := by
    intro g hg
    obtain ⟨p, hp⟩ := exactPass_isSome g.2.2.1 g.2.2.2 (initGroupPairs_bom_wf hwf g hg)
    have hlen : (keysOf p.1).length ≤ 1 := by
      have := hall g hg
      rw [hp] at this
      exact of_decide_eq_true this
    obtain ⟨r, hr⟩ := mismatchPass_isSome_small g.1 g.2.1 (binSlopOf policy) p.1 p.2 hlen
    have : reconcileGroup (binSlopOf policy) g.1 g.2.1 g.2.2.1 g.2.2.2 = some r := by
      simp [reconcileGroup, hp, hr]
    simp [this]
  obtain ⟨out, hout⟩ := mapM_option_isSome _ (initGroupPairs bom intent) hgroup
  have hres : reconcileResults bom intent (binSlopOf policy) = some out := hout
  unfold reconcile_bom_vs_intent
  rw [hres]
  rfl

/-- Witness for the amended C10: a group where the single BOM bin differs
from the intent bin leaves one leftover BOM bin, and the function returns
a findings list. -/
theorem reconcile_total_of_small_leftover_witness :
    (reconcile_bom_vs_intent [("leaf-node", [("sfp28_25g", [(5, 1)])])]
      [("leaf-node", [("sfp28_25g", [(3, 1)])])] ⟨Option.none⟩).isSome = true :=
  reconcile_total_of_small_leftover [("leaf-node", [("sfp28_25g", [(5, 1)])])]
    [("leaf-node", [("sfp28_25g", [(3, 1)])])] ⟨Option.none⟩ (by decide) (by decide)

/-! ### C6 — absent site geometry degrades to a single INFO -/

/-- C6: for every topology, tors, nodes and policy, the lengths pass with
no site geometry returns exactly the one INFO `SITE_GEOMETRY_MISSING`
finding — in particular never a FAIL or WARN finding. -/
theorem lengths_pass_no_site (topology : TopologyRec) (tors : List (String × TorRec))
    (nodes : List NodeRec) (policy : VPolicy) :
    validate_lengths topology tors nodes Option.none policy =
      Except.ok [⟨"INFO", "SITE_GEOMETRY_MISSING",
        "geometry-based length checks skipped (no site.yaml)", []⟩] := rfl

/-! ### C7 — oversubscription tiers -/

/-- The no-uplinks branch of the per-rack oversubscription check. -/
theorem oversubRackFindings_no_uplinks (policy : VPolicy) (nodes : List NodeRec)
    (rack : TopologyRackRec) (h0 : rack.uplinks_qsfp28 * 100 = 0)
    (h1 : edgeBwGbps policy (nodesInRack nodes rack.rack_id) > 0) :
    oversubRackFindings policy nodes rack =
      [⟨"FAIL", "OVERSUB_NO_UPLINKS",
        "rack " ++ rack.rack_id ++ " has edge bandwidth " ++
          toString (edgeBwGbps policy (nodesInRack nodes rack.rack_id)) ++
          " Gbps but no uplinks",
        [("rack_id", CtxVal.S rack.rack_id),
         ("edge_gbps", CtxVal.I (edgeBwGbps policy (nodesInRack nodes rack.rack_id))),
         ("uplink_gbps", CtxVal.I (rack.uplinks_qsfp28 * 100))]⟩] := by
  simp only [oversubRackFindings]
  rw [if_pos ⟨h0, h1⟩]

/-- The WARN branch of the per-rack oversubscription check. -/
theorem oversubRackFindings_warn (policy : VPolicy) (nodes : List NodeRec)
    (rack : TopologyRackRec) (h0 : rack.uplinks_qsfp28 * 100 > 0)
    (h1 : ((edgeBwGbps policy (nodesInRack nodes rack.rack_id) : ℤ) : ℚ)
        / ((rack.uplinks_qsfp28 * 100 : ℤ) : ℚ)
      > policy.oversubscription.max_leaf_to_spine_ratio)
    (h2 : (((edgeBwGbps policy (nodesInRack nodes rack.rack_id) : ℤ) : ℚ)
          / ((rack.uplinks_qsfp28 * 100 : ℤ) : ℚ)
          - policy.oversubscription.max_leaf_to_spine_ratio)
        / policy.oversubscription.max_leaf_to_spine_ratio ≤ 1 / 4) :
    oversubRackFindings policy nodes rack =
      [⟨"WARN", "OVERSUB_RATIO",
        "rack " ++ rack.rack_id ++ " edge " ++
          toString (edgeBwGbps policy (nodesInRack nodes rack.rack_id)) ++
          " Gbps, uplink " ++ toString (rack.uplinks_qsfp28 * 100) ++ " Gbps → " ++
          formatFixed1 (((edgeBwGbps policy (nodesInRack nodes rack.rack_id) : ℤ) : ℚ)
            / ((rack.uplinks_qsfp28 * 100 : ℤ) : ℚ)) ++
          ":1 exceeds policy " ++
          pyFloatStr policy.oversubscription.max_leaf_to_spine_ratio ++ ":1",
        [("rack_id", CtxVal.S rack.rack_id),
         ("edge_gbps", CtxVal.I (edgeBwGbps policy (nodesInRack nodes rack.rack_id))),
         ("uplink_gbps", CtxVal.I (rack.uplinks_qsfp28 * 100)),
         ("ratio", CtxVal.Q (((edgeBwGbps policy (nodesInRack nodes rack.rack_id) : ℤ) : ℚ)
           / ((rack.uplinks_qsfp28 * 100 : ℤ) : ℚ))),
         ("policy_max", CtxVal.Q policy.oversubscription.max_leaf_to_spine_ratio)]⟩] := by
  simp only [oversubRackFindings]
  rw [if_neg (fun hand => absurd hand.1 (by omega)), if_pos h0, if_pos h1, if_pos h2]

/-- The FAIL (critical) branch of the per-rack oversubscription check. -/
theorem oversubRackFindings_critical (policy : VPolicy) (nodes : List NodeRec)
    (rack : TopologyRackRec) (h0 : rack.uplinks_qsfp28 * 100 > 0)
    (h1 : ((edgeBwGbps policy (nodesInRack nodes rack.rack_id) : ℤ) : ℚ)
        / ((rack.uplinks_qsfp28 * 100 : ℤ) : ℚ)
      > policy.oversubscription.max_leaf_to_spine_ratio)
    (h2 : ¬ ((((edgeBwGbps policy (nodesInRack nodes rack.rack_id) : ℤ) : ℚ)
          / ((rack.uplinks_qsfp28 * 100 : ℤ) : ℚ)
          - policy.oversubscription.max_leaf_to_spine_ratio)
        / policy.oversubscription.max_leaf_to_spine_ratio ≤ 1 / 4)) :
    oversubRackFindings policy nodes rack =
      [⟨"FAIL", "OVERSUB_RATIO_CRITICAL",
        "rack " ++ rack.rack_id ++ " edge " ++
          toString (edgeBwGbps policy (nodesInRack nodes rack.rack_id)) ++
          " Gbps, uplink " ++ toString (rack.uplinks_qsfp28 * 100) ++ " Gbps → " ++
          formatFixed1 (((edgeBwGbps policy (nodesInRack nodes rack.rack_id) : ℤ) : ℚ)
            / ((rack.uplinks_qsfp28 * 100 : ℤ) : ℚ)) ++
          ":1 critically exceeds policy " ++
          pyFloatStr policy.oversubscription.max_leaf_to_spine_ratio ++ ":1",
        [("rack_id", CtxVal.S rack.rack_id),
         ("edge_gbps", CtxVal.I (edgeBwGbps policy (nodesInRack nodes rack.rack_id))),
         ("uplink_gbps", CtxVal.I (rack.uplinks_qsfp28 * 100)),
         ("ratio", CtxVal.Q (((edgeBwGbps policy (nodesInRack nodes rack.rack_id) : ℤ) : ℚ)
           / ((rack.uplinks_qsfp28 * 100 : ℤ) : ℚ))),
         ("policy_max", CtxVal.Q policy.oversubscription.max_leaf_to_spine_ratio)]⟩] := by
  simp only [oversubRackFindings]
  rw [if_neg (fun hand => absurd hand.1 (by omega)), if_pos h0, if_pos h1, if_neg h2]

unseal Rat.mul Rat.inv Rat.add Rat.sub Rat.ofScientific in
/-- C7: per rack — zero uplink bandwidth with positive edge bandwidth is
one FAIL `OVERSUB_NO_UPLINKS`; with positive uplink bandwidth and ratio
above the policy maximum, an excess of at most 25 percent is one WARN
`OVERSUB_RATIO` (context `ratio` carries the ratio) and a larger excess is
one FAIL `OVERSUB_RATIO_CRITICAL`; the concrete scenario of edge 450
Gbps over uplink 100 Gbps against maximum 4.0 yields exactly one
`OVERSUB_RATIO` WARN with context ratio 4.5. -/
theorem oversubscription_tiers :
    (∀ (policy : VPolicy) (nodes : List NodeRec) (rack : TopologyRackRec),
      rack.uplinks_qsfp28 * 100 = 0 →
      edgeBwGbps policy (nodesInRack nodes rack.rack_id) > 0 →
      ∃ f, oversubRackFindings policy nodes rack = [f] ∧
        f.severity = "FAIL" ∧ f.code = "OVERSUB_NO_UPLINKS")
    ∧ (∀ (policy : VPolicy) (nodes : List NodeRec) (rack : TopologyRackRec),
      rack.uplinks_qsfp28 * 100 > 0 →
      ((edgeBwGbps policy (nodesInRack nodes rack.rack_id) : ℤ) : ℚ)
          / ((rack.uplinks_qsfp28 * 100 : ℤ) : ℚ)
        > policy.oversubscription.max_leaf_to_spine_ratio →
      (((edgeBwGbps policy (nodesInRack nodes rack.rack_id) : ℤ) : ℚ)
          / ((rack.uplinks_qsfp28 * 100 : ℤ) : ℚ)
          - policy.oversubscription.max_leaf_to_spine_ratio)
        / policy.oversubscription.max_leaf_to_spine_ratio ≤ 1 / 4 →
      ∃ f, oversubRackFindings policy nodes rack = [f] ∧
        f.severity = "WARN" ∧ f.code = "OVERSUB_RATIO" ∧
        getVal f.context "ratio" = some (CtxVal.Q
          (((edgeBwGbps policy (nodesInRack nodes rack.rack_id) : ℤ) : ℚ)
            / ((rack.uplinks_qsfp28 * 100 : ℤ) : ℚ))))
    ∧ (∀ (policy : VPolicy) (nodes : List NodeRec) (rack : TopologyRackRec),
      rack.uplinks_qsfp28 * 100 > 0 →
      ((edgeBwGbps policy (nodesInRack nodes rack.rack_id) : ℤ) : ℚ)
          / ((rack.uplinks_qsfp28 * 100 : ℤ) : ℚ)
        > policy.oversubscription.max_leaf_to_spine_ratio →
      ¬ ((((edgeBwGbps policy (nodesInRack nodes rack.rack_id) : ℤ) : ℚ)
          / ((rack.uplinks_qsfp28 * 100 : ℤ) : ℚ)
          - policy.oversubscription.max_leaf_to_spine_ratio)
        / policy.oversubscription.max_leaf_to_spine_ratio ≤ 1 / 4) →
      ∃ f, oversubRackFindings policy nodes rack = [f] ∧
        f.severity = "FAIL" ∧ f.code = "OVERSUB_RATIO_CRITICAL")
    ∧ validate_oversubscription ⟨⟨"spine-1", "SN2700", ⟨32⟩⟩, [⟨"rack-1", "tor-1", 1⟩], ⟨2⟩⟩
        [] [⟨"node-1", "rack-1", Option.none, [⟨"SFP28", 18⟩]⟩] policyDefaults =
      [⟨"WARN", "OVERSUB_RATIO",
        "rack rack-1 edge 450 Gbps, uplink 100 Gbps → 4.5:1 exceeds policy 4.0:1",
        [("rack_id", CtxVal.S "rack-1"), ("edge_gbps", CtxVal.I 450),
         ("uplink_gbps", CtxVal.I 100), ("ratio", CtxVal.Q (9 / 2)),
         ("policy_max", CtxVal.Q 4)]⟩] := by
  refine ⟨?_, ?_, ?_, by decide⟩
  · intro policy nodes rack h0 h1
    exact ⟨_, oversubRackFindings_no_uplinks policy nodes rack h0 h1, rfl, rfl⟩
  · intro policy nodes rack h0 h1 h2
    exact ⟨_, oversubRackFindings_warn policy nodes rack h0 h1 h2, rfl, rfl,
      by simp [getVal]⟩
  · intro policy nodes rack h0 h1 h2
    exact ⟨_, oversubRackFindings_critical policy nodes rack h0 h1 h2, rfl, rfl⟩

/-- Witness for C7: the no-uplinks clause applied to a rack with zero
uplinks and one default-NIC node. -/
theorem oversubscription_tiers_witness :
    0 < edgeBwGbps policyDefaults
      (nodesInRack [⟨"n1", "rack-1", Option.none, []⟩] "rack-1")
    ∧ (oversubRackFindings policyDefaults [⟨"n1", "rack-1", Option.none, []⟩]
        ⟨"rack-1", "tor-1", 0⟩).length = 1 := by
  obtain ⟨f, hf, _, _⟩ := oversubscription_tiers.1 policyDefaults
    [⟨"n1", "rack-1", Option.none, []⟩] ⟨"rack-1", "tor-1", 0⟩ (by decide) (by decide)
  exact ⟨by decide, by rw [hf]; rfl⟩

/-! ### C5 — load-failure handling of `run_cabling_validation` -/

/-- Counterexample to C5: a policy file that exists but fails to parse is
an input whose loading fails, yet `run_cabling_validation` does not return
the single-finding DATA_LOAD_ERROR report — `_load_policy` runs before the
try-block and only tolerates `FileNotFoundError`, so the parse error
propagates out of the function (an `error`, not a `Report`). -/
theorem run_validation_policy_raise_counterexample :
    run_cabling_validation
      (some (LoadResult.raised "yaml.scanner.ScannerError: mapping values are not allowed here"))
      (LoadResult.ok ⟨⟨"spine-1", "SN2700", ⟨32⟩⟩, [], ⟨0⟩⟩)
      (LoadResult.ok ([], Option.none)) (LoadResult.ok []) LoadResult.fileNotFound
      = Except.error "yaml.scanner.ScannerError: mapping values are not allowed here" := rfl

/-- C5 amended: when the policy load succeeds (no path, a missing file, or
a parsed file) and loading the manifests fails (topology, tors or nodes
raising anything, or the site raising other than a missing file),
`run_cabling_validation` returns — without raising — a Report whose
summary is exactly {pass: 0, warn: 0, fail: 1} and whose findings are
exactly one FAIL `DATA_LOAD_ERROR`.  A policy file that exists but fails
to parse instead raises past this boundary
(`run_validation_policy_raise_counterexample`). -/
theorem run_validation_load_failure_report (policyFile : Option (LoadResult RawPolicy))
    (topologyLoad : LoadResult TopologyRec)
    (torsLoad : LoadResult (List TorRec × Option SpineRec))
    (nodesLoad : LoadResult (List NodeRec)) (siteLoad : LoadResult SiteRec)
    (policy : VPolicy) (e : String)
    (hpol : load_policy policyFile = Except.ok policy)
    (hload : loadManifests topologyLoad torsLoad nodesLoad siteLoad = Except.error e) :
    run_cabling_validation policyFile topologyLoad torsLoad nodesLoad siteLoad =
      Except.ok
        { summary := [("pass", 0), ("warn", 0), ("fail", 1)]
          findings := [⟨"FAIL", "DATA_LOAD_ERROR", "Failed to load required data: " ++ e,
            [("error", CtxVal.S e)]⟩] } := by
  unfold run_cabling_validation
  rw [hpol, hload]
  rfl

/-- Witness for the amended C5: no policy path and a topology loader that
raises. -/
theorem run_validation_load_failure_report_witness :
    run_cabling_validation Option.none (LoadResult.raised "boom")
      (LoadResult.ok ([], Option.none)) (LoadResult.ok []) LoadResult.fileNotFound =
      Except.ok
        { summary := [("pass", 0), ("warn", 0), ("fail", 1)]
          findings := [⟨"FAIL", "DATA_LOAD_ERROR", "Failed to load required data: boom",
            [("error", CtxVal.S "boom")]⟩] } :=
  run_validation_load_failure_report Option.none (LoadResult.raised "boom")
    (LoadResult.ok ([], Option.none)) (LoadResult.ok []) LoadResult.fileNotFound
    policyDefaults "boom" rfl rfl
